import Mathlib

/-!
Verification development for the seat-booking core of the
AirplaneBookingSystem repository (`main.py`, class `SeatBookingSystem`).

The Python class is shallowly embedded as pure Lean functions over an
explicit system state.  Conventions used throughout:

* A seat tuple `(status, seat_type, booking_reference)` becomes the
  structure `Seat`; `status` is the raw Python string (`"F"`, `"A"`,
  `"S"`, or a booking-reference string stored directly in the status
  field, exactly as the source does).
* The seat grid `self.seats` becomes a total function `Nat → Nat → Seat`
  together with the fixed bounds 7 × 80; Python's `IndexError` on an
  out-of-range `self.seats[row][col]` access is modelled by the enclosing
  operation returning `none` (an exception escaping the method).
* The SQLite connection is modelled by a `DB` value: `cursor.execute`
  mutations act on an uncommitted transaction copy (`Tx.pending`),
  `conn.commit()` installs the pending copy, `conn.rollback()` discards
  it.  An injected `failAt : Option Nat` names the index (in execution
  order) of the database call that raises `sqlite3.Error`, abstracting
  arbitrary store failures; `none` means no call fails.  The Python
  message `f"Database error: {str(e)}"` is abstracted to the constant
  `dbErrorMsg` since the exception text is environment-dependent.
* `random.choices(string.ascii_uppercase + string.digits, k=8)` is
  modelled by an explicit stream of pre-drawn sample strings; `refChoice`
  shows that every string the source can actually draw is an 8-character
  uppercase-alphanumeric string.
* Python sets (`selected_seats`, `booking_references`,
  `booking_refs_to_check`) are modelled as duplicate-free lists in
  iteration order.
-/

/-- One cell of `self.seats`: the Python tuple
`(status, seat_type, booking_reference)`. -/
structure Seat where
  status : String
  seatType : String
  bookingRef : Option String
deriving DecidableEq, Repr

/-- A row of the `bookings` table:
`(booking_reference, passport_number, first_name, last_name)`. -/
structure BookingRow where
  ref : String
  passport : String
  firstName : String
  lastName : String
deriving DecidableEq, Repr

/-- A row of the `booked_seats` table (the AUTOINCREMENT id is dropped;
it is never read by the program). `rowL` is the single seat-row letter,
`col` the 1-based seat column. -/
structure Link where
  ref : String
  rowL : Char
  col : Nat
  ty : String
deriving DecidableEq, Repr

/-- The durable SQLite database: the two tables. -/
structure DB where
  bookings : List BookingRow
  bookedSeats : List Link
deriving DecidableEq, Repr

/-- The in-memory seat grid `self.seats` as a total function; only the
7 × 80 in-range part is meaningful. -/
def Grid : Type := Nat → Nat → Seat

/-- Passenger info tuple `(passport_number, first_name, last_name)`. -/
structure Passenger where
  passport : String
  firstName : String
  lastName : String
deriving DecidableEq, Repr

/-- The mutable state of a `SeatBookingSystem` object between method
calls: the seat grid, the selection set (`selected_seats`, in iteration
order), the in-memory reference registry (`booking_references`), and the
committed database. Between calls the connection's uncommitted view
coincides with the committed one, so a single `db` field suffices. -/
structure SysState where
  seats : Grid
  selected : List (Nat × Nat)
  bookingRefs : List String
  db : DB

/-- `self.num_rows`. -/
def num_rows : Nat := 7

/-- `self.num_cols`. -/
def num_cols : Nat := 80

/-- `self.row_letters = 'ABCDEFG'`. -/
def row_letters : List Char := "ABCDEFG".toList

/-- `string.ascii_uppercase + string.digits`. -/
def refAlphabet : List Char := "ABCDEFGHIJKLMNOPQRSTUVWXYZ0123456789".toList

/-- `is_booking_reference`: an 8-character string all of whose characters
are uppercase letters or digits (the `isinstance(status, str)` guard is
vacuous here because statuses are always strings in the model). -/
def is_booking_reference (s : String) : Bool :=
  s.length = 8 && s.data.all (fun c => decide (c ∈ refAlphabet))

/-- The storage column list from `mark_special_seats`. -/
def storage_columns : List Nat := [13, 14, 15, 28, 29, 30, 43, 44, 45, 58, 59, 60, 73, 74, 75]

/-- The grid produced by `__init__` + `mark_special_seats` on an empty
database: all seats Free/Economy, then row 3 overlaid as Aisle, then the
storage columns (skipping row 3), then remaining `'F'` seats in columns
`< 30` marked First class.  The sequential overlays of the source are
captured by this priority order. -/
def initSeat (r c : Nat) : Seat :=
  if r = 3 then ⟨"A", "Aisle", none⟩
  else if c ∈ storage_columns then ⟨"S", "Storage", none⟩
  else if c < 30 then ⟨"F", "First", none⟩
  else ⟨"F", "Economy", none⟩

/-- The initial grid as a `Grid`. -/
def initGrid : Grid := initSeat

/-- `self.row_letters[row]` (used only under `row < num_rows`, where the
Python expression does not raise). -/
def rowLetter (r : Nat) : Char := row_letters.getD r 'A'

/-- `'ABCDEFG'.index(row_letter)` for a single-letter row label;
`none` models the uncaught `ValueError` when the letter is absent. -/
def rowLetterIndex (c : Char) : Option Nat :=
  go row_letters 0
where
  go : List Char → Nat → Option Nat
    | [], _ => none
    | x :: xs, i => if x = c then some i else go xs (i + 1)

/-- `get_seat_name`: row letter followed by the 1-based column. -/
def get_seat_name (row col : Nat) : String :=
  String.singleton (rowLetter row) ++ toString (col + 1)

/-- Pointwise grid update, modelling `self.seats[row][col] = ...`. -/
def updateSeat (g : Grid) (row col : Nat) (s : Seat) : Grid :=
  fun r c => if r = row ∧ c = col then s else g r c

/-- `SELECT COUNT(*) FROM booked_seats WHERE booking_reference = ?`. -/
def countSeatsFor (db : DB) (ref : String) : Nat :=
  (db.bookedSeats.filter (fun l => l.ref = ref)).length

/-- `INSERT INTO bookings VALUES (?, ?, ?, ?)`. -/
def insertBooking (ref : String) (p : Passenger) (db : DB) : DB :=
  { db with bookings := db.bookings ++ [⟨ref, p.passport, p.firstName, p.lastName⟩] }

/-- `INSERT INTO booked_seats (booking_reference, seat_row, seat_column, seat_type)`. -/
def insertLink (ref : String) (rl : Char) (c : Nat) (ty : String) (db : DB) : DB :=
  { db with bookedSeats := db.bookedSeats ++ [⟨ref, rl, c, ty⟩] }

/-- `DELETE FROM booked_seats WHERE booking_reference = ? AND seat_row = ? AND seat_column = ?`. -/
def deleteLink (ref : String) (rl : Char) (c : Nat) (db : DB) : DB :=
  { db with bookedSeats := db.bookedSeats.filter (fun l => ¬(l.ref = ref ∧ l.rowL = rl ∧ l.col = c)) }

/-- `DELETE FROM bookings WHERE booking_reference = ?`. -/
def deleteBookingRow (ref : String) (db : DB) : DB :=
  { db with bookings := db.bookings.filter (fun b => ¬ b.ref = ref) }

/-- `SELECT passport_number, first_name, last_name FROM bookings WHERE
booking_reference = ?` followed by `fetchone()`. -/
def lookupBooking (db : DB) (ref : String) : Option BookingRow :=
  db.bookings.find? (fun b => b.ref = ref)

/-- The uncommitted view of the connection inside one method call,
together with the index of the next database call (for failure
injection). -/
structure Tx where
  pending : DB
  opIdx : Nat

/-- Execute one `cursor.execute`/`conn.commit` level database call: if
the injected failure schedule names this call it raises (`none`),
otherwise the mutation is applied to the pending transaction. -/
def runOp (failAt : Option Nat) (tx : Tx) (f : DB → DB) : Option Tx :=
  if failAt = some tx.opIdx then none else some ⟨f tx.pending, tx.opIdx + 1⟩

/-- Abstraction of `f"Database error: {str(e)}"`. -/
def dbErrorMsg : String := "Database error"

/-- `generate_booking_reference`, with the random draws made explicit:
scan the pre-drawn sample stream for the first string not already in
`booking_references`, add it to the registry and return it together with
the updated registry.  `none` means every sample collided — i.e. the
source's `while True` loop is still running after `samples.length`
draws. -/
def generate_booking_reference (registry : List String) : List String → Option (String × List String)
  | [] => none
  | s :: rest =>
    if s ∈ registry then generate_booking_reference registry rest
    else some (s, s :: registry)

/-- `toggle_seat_selection`.  Result `none` models the uncaught
`IndexError` from `self.seats[row][col]` on an out-of-range position;
otherwise the triple is (new state, success flag, optional message),
where message `none` is the Python `None` returned for a non-selectable
seat. -/
def toggle_seat_selection (st : SysState) (row col : Nat) :
    Option (SysState × Bool × Option String) :=
  if row < num_rows ∧ col < num_cols then
    let s := st.seats row col
    if s.status ≠ "F" ∧ ¬ is_booking_reference s.status then
      some (st, false, none)
    else if (row, col) ∈ st.selected then
      some ({ st with selected := st.selected.erase (row, col) }, true,
            some ("Unselected seat " ++ get_seat_name row col))
    else
      some ({ st with selected := st.selected ++ [(row, col)] }, true,
            some ("Selected seat " ++ get_seat_name row col))
  else none

/-- `status_map.get(status, 'Unknown')`. -/
def statusText (s : String) : String :=
  if s = "F" then "Free" else if s = "A" then "Aisle" else if s = "S" then "Storage" else "Unknown"

/-- `get_seat_status`.  The `try/except sqlite3.Error` around the
passenger lookup falls through to the raw-reference message, which
coincides with the `fetchone()`-returned-`None` case; both are the
`none` branch of `lookupBooking`. -/
def get_seat_status (st : SysState) (row col : Nat) : String :=
  if row < num_rows ∧ col < num_cols then
    let s := st.seats row col
    let name := get_seat_name row col
    if is_booking_reference s.status then
      match lookupBooking st.db s.status with
      | some b =>
        "Seat " ++ name ++ " is Reserved (" ++ s.seatType ++ " Class). " ++
          "Booking Reference: " ++ s.status ++ ", " ++
          "Passenger: " ++ b.firstName ++ " " ++ b.lastName ++ ", " ++
          "Passport: " ++ b.passport
      | none =>
        "Seat " ++ name ++ " is Reserved (" ++ s.seatType ++ " Class). Reference: " ++ s.status
    else
      "Seat " ++ name ++ " is " ++ statusText s.status ++ " (" ++ s.seatType ++ " Class)"
  else "Invalid seat position"

/-- Outcome of the seat loop inside `book_seats`: `crash` is an
`IndexError` escaping the method, `dbfail` a `sqlite3.Error` raised by a
seat-link insert (carrying the grid as already mutated at that point),
`ok` the completed loop. -/
inductive BookLoopRes where
  | crash : BookLoopRes
  | dbfail : Grid → BookLoopRes
  | ok : Grid → Tx → List String → BookLoopRes

/-- The `for row, col in self.selected_seats` loop of `book_seats`: each
seat that is currently Free is first rewritten in memory to
`(reference, seat_type, reference)` and then inserted into
`booked_seats`; non-Free seats are skipped.  Note the in-memory write
precedes the database call, exactly as in the source. -/
def bookLoop (ref : String) (failAt : Option Nat) :
    List (Nat × Nat) → Grid → Tx → List String → BookLoopRes
  | [], g, tx, names => .ok g tx names
  | (row, col) :: rest, g, tx, names =>
    if row < num_rows ∧ col < num_cols then
      if (g row col).status = "F" then
        match runOp failAt tx (insertLink ref (rowLetter row) (col + 1) (g row col).seatType) with
        | none => .dbfail (updateSeat g row col ⟨ref, (g row col).seatType, some ref⟩)
        | some tx' =>
          bookLoop ref failAt rest (updateSeat g row col ⟨ref, (g row col).seatType, some ref⟩)
            tx' (names ++ [get_seat_name row col])
      else bookLoop ref failAt rest g tx names
    else .crash

/-- `book_seats`.  `passenger = none` models the Python default
`passenger_info=None` (any provided 3-tuple is truthy, so only `None`
takes the early-return branch).  Result `none` is a non-`sqlite3.Error`
exception escaping the method: an `IndexError` from the loop, or the
generator never returning within the supplied sample stream. -/
def book_seats (st : SysState) (passenger : Option Passenger)
    (samples : List String) (failAt : Option Nat) :
    Option (SysState × Bool × String) :=
  if st.selected = [] then some (st, false, "No seats selected")
  else
    match passenger with
    | none => some (st, false, "Passenger information is required")
    | some p =>
      match generate_booking_reference st.bookingRefs samples with
      | none => none
      | some (ref, regs) =>
        match runOp failAt ⟨st.db, 0⟩ (insertBooking ref p) with
        | none => some ({ st with bookingRefs := regs }, false, dbErrorMsg)
        | some tx0 =>
          match bookLoop ref failAt st.selected st.seats tx0 [] with
          | .crash => none
          | .dbfail g => some ({ st with seats := g, bookingRefs := regs }, false, dbErrorMsg)
          | .ok g tx names =>
            if failAt = some tx.opIdx then
              some ({ st with seats := g, bookingRefs := regs }, false, dbErrorMsg)
            else
              some ({ st with seats := g, bookingRefs := regs, db := tx.pending, selected := [] },
                    true,
                    "Booked seats: " ++ String.intercalate ", " names ++ " for " ++
                      p.firstName ++ " " ++ p.lastName ++ ". Reference: " ++ ref)

/-- `booking_refs_to_check.add(status)` on the Python set, in insertion
order. -/
def addUnique (xs : List String) (x : String) : List String :=
  if x ∈ xs then xs else xs ++ [x]

/-- Outcome of the first `free_seats` loop (per-seat deletions). -/
inductive FreePh1 where
  | crash : FreePh1
  | dbfail : Grid → FreePh1
  | ok : Grid → Tx → List String → List String → FreePh1

/-- The `for row, col in self.selected_seats` loop of `free_seats`: each
seat whose status passes `is_booking_reference` has its reference added
to `booking_refs_to_check`, is rewritten in memory to
`('F', seat_type, None)`, and has its `booked_seats` row deleted; other
seats are skipped.  As in `book_seats` the in-memory write precedes the
database call. -/
def freeLoop1 (failAt : Option Nat) :
    List (Nat × Nat) → Grid → Tx → List String → List String → FreePh1
  | [], g, tx, refs, freed => .ok g tx refs freed
  | (row, col) :: rest, g, tx, refs, freed =>
    if row < num_rows ∧ col < num_cols then
      if is_booking_reference (g row col).status then
        match runOp failAt tx (deleteLink (g row col).status (rowLetter row) (col + 1)) with
        | none => .dbfail (updateSeat g row col ⟨"F", (g row col).seatType, none⟩)
        | some tx' =>
          freeLoop1 failAt rest (updateSeat g row col ⟨"F", (g row col).seatType, none⟩)
            tx' (addUnique refs (g row col).status) (freed ++ [get_seat_name row col])
      else freeLoop1 failAt rest g tx refs freed
    else .crash

/-- Outcome of the second `free_seats` loop (header cleanup).  `crash`
is the uncaught `KeyError` from `booking_references.remove(ref)` when
the reference is not in the registry. -/
inductive FreePh2 where
  | crash : FreePh2
  | dbfail : List String → FreePh2
  | ok : Tx → List String → FreePh2

/-- The `for ref in booking_refs_to_check` loop of `free_seats`: count
the remaining `booked_seats` rows for the reference (one database call),
and when none remain delete the booking header and remove the reference
from the in-memory registry. -/
def freeLoop2 (failAt : Option Nat) :
    List String → Tx → List String → FreePh2
  | [], tx, regs => .ok tx regs
  | ref :: rest, tx, regs =>
    match runOp failAt tx id with
    | none => .dbfail regs
    | some tx1 =>
      if countSeatsFor tx1.pending ref = 0 then
        match runOp failAt tx1 (deleteBookingRow ref) with
        | none => .dbfail regs
        | some tx2 =>
          if ref ∈ regs then freeLoop2 failAt rest tx2 (regs.erase ref)
          else .crash
      else freeLoop2 failAt rest tx1 regs

/-- `free_seats`.  Result `none` is a non-`sqlite3.Error` exception
escaping the method (`IndexError` or `KeyError`). -/
def free_seats (st : SysState) (failAt : Option Nat) :
    Option (SysState × Bool × String) :=
  if st.selected = [] then some (st, false, "No seats selected")
  else
    match freeLoop1 failAt st.selected st.seats ⟨st.db, 0⟩ [] [] with
    | .crash => none
    | .dbfail g => some ({ st with seats := g }, false, dbErrorMsg)
    | .ok g tx refs freed =>
      match freeLoop2 failAt refs tx st.bookingRefs with
      | .crash => none
      | .dbfail regs => some ({ st with seats := g, bookingRefs := regs }, false, dbErrorMsg)
      | .ok tx2 regs =>
        if failAt = some tx2.opIdx then
          some ({ st with seats := g, bookingRefs := regs }, false, dbErrorMsg)
        else
          some ({ st with seats := g, bookingRefs := regs, db := tx2.pending, selected := [] },
                true, "Freed seats: " ++ String.intercalate ", " freed)

/-- `load_bookings_from_database`: replay every `booked_seats` row into
the grid, marking the seat `(booking_ref, seat_type, booking_ref)` when
the decoded position is in range.  `none` models the uncaught
`ValueError` from `row_letters.index` on an unknown row letter (the
`except` clause only catches `sqlite3.Error`).  The 1-based column check
`0 <= col_num - 1 < num_cols` becomes `1 ≤ col ∧ col - 1 < num_cols`. -/
def load_bookings : Grid → List Link → Option Grid
  | g, [] => some g
  | g, l :: rest =>
    match rowLetterIndex l.rowL with
    | none => none
    | some ri =>
      let g' := if ri < num_rows ∧ 1 ≤ l.col ∧ l.col - 1 < num_cols then
                  updateSeat g ri (l.col - 1) ⟨l.ref, l.ty, some l.ref⟩
                else g
      load_bookings g' rest

/-- Object construction (`__init__` on an existing database file):
registry loaded from the `bookings` table, grid rebuilt from
`booked_seats`, empty selection. -/
def mkSystem (db : DB) : Option SysState :=
  match load_bookings initGrid db.bookedSeats with
  | none => none
  | some g => some ⟨g, [], db.bookings.map (fun b => b.ref), db⟩

/-- The state of a fresh system over an empty database. -/
def initialState : SysState := ⟨initGrid, [], [], ⟨[], []⟩⟩

/-- One concrete draw of `random.choices(alphabet, k=8)`: the string
assembled from eight alphabet indices.  Every string the source's
sampler can produce has this form. -/
def refChoice (f : Fin 8 → Fin 36) : String :=
  String.mk ((List.finRange 8).map (fun i => refAlphabet.getD (f i) 'A'))

/-- The two legal shapes of an in-memory seat tuple: a plain status
(`'F'`/`'A'`/`'S'`) with no reference, or a booking reference stored
identically in the status and reference fields. -/
def SeatWF (s : Seat) : Prop :=
  (s.status ∈ (["F", "A", "S"] : List String) ∧ s.bookingRef = none) ∨
  (is_booking_reference s.status = true ∧ s.bookingRef = some s.status)

/-- Well-formedness of the whole (in-range part of the) grid. -/
def GridWF (g : Grid) : Prop :=
  ∀ r c, r < num_rows → c < num_cols → SeatWF (g r c)

/-- Scenario helper: the state after a `toggle_seat_selection` call that
does not raise (identity otherwise). -/
def stepToggle (st : SysState) (row col : Nat) : SysState :=
  match toggle_seat_selection st row col with
  | some x => x.1
  | none => st

/-- Scenario helper: the state after a `book_seats` call that does not
raise (identity otherwise), with no injected store failure. -/
def stepBook (st : SysState) (p : Passenger) (samples : List String) : SysState :=
  match book_seats st (some p) samples none with
  | some x => x.1
  | none => st

/-- Scenario helper: the resulting state of a `free_seats` call with no
injected store failure (identity if the call raises). -/
def freeResState (st : SysState) : SysState :=
  match free_seats st none with
  | some x => x.1
  | none => st

/-- Scenario helper: the message of a `free_seats` call with no injected
store failure. -/
def freeResMsg (st : SysState) : String :=
  match free_seats st none with
  | some x => x.2.2
  | none => ""

/-- Scenario helper: the resulting state of a `book_seats` call under an
injected failure schedule (identity if the call raises). -/
def bookResState (st : SysState) (p : Option Passenger) (samples : List String)
    (failAt : Option Nat) : SysState :=
  match book_seats st p samples failAt with
  | some x => x.1
  | none => st

/-- Scenario helper: the message of a `book_seats` call under an
injected failure schedule. -/
def bookResMsg (st : SysState) (p : Option Passenger) (samples : List String)
    (failAt : Option Nat) : String :=
  match book_seats st p samples failAt with
  | some x => x.2.2
  | none => ""

/-! ## Shared lemmas -/


theorem gen_ref_spec {reg : List String} {ref : String} {regs : List String} :
    ∀ {samples : List String}, generate_booking_reference reg samples = some (ref, regs) →
    ref ∉ reg ∧ regs = ref :: reg ∧ ref ∈ samples := by
  intro samples
  induction samples with
  | nil => intro h; exact absurd h (by simp [generate_booking_reference])
  | cons s rest ih =>
    intro h
    rw [generate_booking_reference] at h
    by_cases hs : s ∈ reg
    · rw [if_pos hs] at h
      rcases ih h with ⟨h1, h2, h3⟩
      exact ⟨h1, h2, by simp [h3]⟩
    · rw [if_neg hs] at h
      simp only [Option.some.injEq, Prod.mk.injEq] at h
      obtain ⟨h1, h2⟩ := h
      exact ⟨h1 ▸ hs, by rw [← h2, h1], by simp [h1]⟩

theorem gen_ref_none {reg : List String} :
    ∀ {samples : List String}, (∀ s ∈ samples, s ∈ reg) →
    generate_booking_reference reg samples = none := by
  intro samples
  induction samples with
  | nil => intro _; rfl
  | cons s rest ih =>
    intro h
    rw [generate_booking_reference, if_pos (h s (by simp))]
    exact ih (fun x hx => h x (by simp [hx]))

theorem gen_ref_total {reg : List String} :
    ∀ {samples : List String}, (∃ s ∈ samples, s ∉ reg) →
    ∃ ref regs, generate_booking_reference reg samples = some (ref, regs) := by
  intro samples
  induction samples with
  | nil => intro h; simp at h
  | cons s rest ih =>
    intro h
    rw [generate_booking_reference]
    by_cases hs : s ∈ reg
    · rw [if_pos hs]
      apply ih
      rcases h with ⟨x, hx, hxr⟩
      rcases List.mem_cons.mp hx with rfl | hx'
      · exact absurd hs hxr
      · exact ⟨x, hx', hxr⟩
    · exact ⟨s, s :: reg, by rw [if_neg hs]⟩

theorem book_completions {st : SysState} {pass : Option Passenger} {samples : List String}
    {failAt : Option Nat} {st' : SysState} {flag : Bool} {msg : String}
    (h : book_seats st pass samples failAt = some (st', flag, msg)) :
    (st.selected = [] ∧ flag = false ∧ st' = st) ∨
    (st.selected ≠ [] ∧ pass = none ∧ flag = false ∧ st' = st) ∨
    (st.selected ≠ [] ∧ ∃ p ref regs, pass = some p ∧
      generate_booking_reference st.bookingRefs samples = some (ref, regs) ∧
      st'.bookingRefs = regs ∧
      ((flag = false ∧ st'.db = st.db ∧ st'.selected = st.selected ∧
         (st'.seats = st.seats ∨
          ∃ tx0 g, runOp failAt ⟨st.db, 0⟩ (insertBooking ref p) = some tx0 ∧
            (bookLoop ref failAt st.selected st.seats tx0 [] = .dbfail g ∨
             ∃ tx names, bookLoop ref failAt st.selected st.seats tx0 [] = .ok g tx names) ∧
            st'.seats = g)) ∨
       (flag = true ∧ ∃ tx0 g tx names,
          runOp failAt ⟨st.db, 0⟩ (insertBooking ref p) = some tx0 ∧
          bookLoop ref failAt st.selected st.seats tx0 [] = .ok g tx names ∧
          ¬ failAt = some tx.opIdx ∧
          st' = { st with seats := g, bookingRefs := regs, db := tx.pending, selected := [] }))) := by
  unfold book_seats at h
  split at h
  · next hsel =>
    injection h with h1
    injection h1 with ha hb
    injection hb with hb hc
    exact Or.inl ⟨hsel, hb.symm, ha.symm⟩
  · next hsel =>
    split at h
    · next =>
      injection h with h1
      injection h1 with ha hb
      injection hb with hb hc
      exact Or.inr (Or.inl ⟨hsel, rfl, hb.symm, ha.symm⟩)
    · next p =>
      split at h
      · next hgen => exact absurd h (by simp)
      · next ref regs hgen =>
        refine Or.inr (Or.inr ⟨hsel, p, ref, regs, rfl, hgen, ?_⟩)
        split at h
        · next hop =>
          injection h with h1
          injection h1 with ha hb
          injection hb with hb hc
          subst ha
          exact ⟨rfl, Or.inl ⟨hb.symm, rfl, rfl, Or.inl rfl⟩⟩
        · next tx0 hop =>
          split at h
          · next hloop => exact absurd h (by simp)
          · next g hloop =>
            injection h with h1
            injection h1 with ha hb
            injection hb with hb hc
            subst ha
            exact ⟨rfl, Or.inl ⟨hb.symm, rfl, rfl, Or.inr ⟨tx0, g, hop, Or.inl hloop, rfl⟩⟩⟩
          · next g tx names hloop =>
            split at h
            · next hcm =>
              injection h with h1
              injection h1 with ha hb
              injection hb with hb hc
              subst ha
              exact ⟨rfl, Or.inl ⟨hb.symm, rfl, rfl,
                Or.inr ⟨tx0, g, hop, Or.inr ⟨tx, names, hloop⟩, rfl⟩⟩⟩
            · next hcm =>
              injection h with h1
              injection h1 with ha hb
              injection hb with hb hc
              subst ha
              exact ⟨rfl, Or.inr ⟨hb.symm, tx0, g, tx, names, hop, hloop, hcm, rfl⟩⟩

theorem free_completions {st : SysState} {failAt : Option Nat}
    {st' : SysState} {flag : Bool} {msg : String}
    (h : free_seats st failAt = some (st', flag, msg)) :
    (st.selected = [] ∧ flag = false ∧ st' = st) ∨
    (st.selected ≠ [] ∧ flag = false ∧ st'.db = st.db ∧ st'.selected = st.selected ∧
      ∃ g, (freeLoop1 failAt st.selected st.seats ⟨st.db, 0⟩ [] [] = .dbfail g ∨
            ∃ tx refs freed, freeLoop1 failAt st.selected st.seats ⟨st.db, 0⟩ [] [] = .ok g tx refs freed) ∧
        st'.seats = g) ∨
    (st.selected ≠ [] ∧ flag = true ∧ ∃ g tx refs freed tx2 regs,
      freeLoop1 failAt st.selected st.seats ⟨st.db, 0⟩ [] [] = .ok g tx refs freed ∧
      freeLoop2 failAt refs tx st.bookingRefs = .ok tx2 regs ∧
      ¬ failAt = some tx2.opIdx ∧
      st' = { st with seats := g, bookingRefs := regs, db := tx2.pending, selected := [] }) := by
  unfold free_seats at h
  split at h
  · next hsel =>
    injection h with h1
    injection h1 with ha hb
    injection hb with hb hc
    exact Or.inl ⟨hsel, hb.symm, ha.symm⟩
  · next hsel =>
    split at h
    · next h1 => exact absurd h (by simp)
    · next g h1 =>
      injection h with hx
      injection hx with ha hb
      injection hb with hb hc
      subst ha
      exact Or.inr (Or.inl ⟨hsel, hb.symm, rfl, rfl, g, Or.inl h1, rfl⟩)
    · next g tx refs freed h1 =>
      split at h
      · next h2 => exact absurd h (by simp)
      · next regs h2 =>
        injection h with hx
        injection hx with ha hb
        injection hb with hb hc
        subst ha
        exact Or.inr (Or.inl ⟨hsel, hb.symm, rfl, rfl, g, Or.inr ⟨tx, refs, freed, h1⟩, rfl⟩)
      · next tx2 regs h2 =>
        split at h
        · next hcm =>
          injection h with hx
          injection hx with ha hb
          injection hb with hb hc
          subst ha
          exact Or.inr (Or.inl ⟨hsel, hb.symm, rfl, rfl, g, Or.inr ⟨tx, refs, freed, h1⟩, rfl⟩)
        · next hcm =>
          injection h with hx
          injection hx with ha hb
          injection hb with hb hc
          subst ha
          exact Or.inr (Or.inr ⟨hsel, hb.symm, g, tx, refs, freed, tx2, regs, h1, h2, hcm, rfl⟩)

/-! ## Concrete scenario states shared by several claims -/

/-- `("P1", "John", "Doe")`. -/
def pAlpha : Passenger := ⟨"P1", "John", "Doe"⟩

/-- `("P2", "Jane", "Roe")`. -/
def pBeta : Passenger := ⟨"P2", "Jane", "Roe"⟩

/-- Fresh system with seat A1 selected (free First-class seat (0,0)). -/
def selA1 : SysState := stepToggle initialState 0 0

/-! ## C1 -/

/-- C1: amended version.  Whenever a `book_seats` or `free_seats` call
completes with a failure result, the durable store is unchanged — the
transaction was rolled back and the committed database is exactly the
pre-call database.  (The in-memory SeatMap is *not* restored, as the
counterexample shows: seat mutation is interleaved before the commit.) -/
theorem c1_store_rollback_on_failure :
    (∀ (st : SysState) (pass : Option Passenger) (samples : List String)
       (failAt : Option Nat) (st' : SysState) (msg : String),
       book_seats st pass samples failAt = some (st', false, msg) → st'.db = st.db) ∧
    (∀ (st : SysState) (failAt : Option Nat) (st' : SysState) (msg : String),
       free_seats st failAt = some (st', false, msg) → st'.db = st.db) := by
  constructor
  · intro st pass samples failAt st' msg h
    rcases book_completions h with ⟨_, _, rfl⟩ | ⟨_, _, _, rfl⟩ |
      ⟨_, p, ref, regs, _, _, _, ⟨_, hdb, _⟩ | ⟨hflag, _⟩⟩
    · rfl
    · rfl
    · exact hdb
    · exact absurd hflag (by simp)
  · intro st failAt st' msg h
    rcases free_completions h with ⟨_, _, rfl⟩ | ⟨_, _, hdb, _⟩ | ⟨_, hflag, _⟩
    · rfl
    · exact hdb
    · exact absurd hflag (by simp)

/-- C1: witness for the amended theorem — a concrete failing `book_seats`
call (commit raises, operation index 2) whose completion leaves the
committed database exactly as before. -/
theorem c1_store_rollback_on_failure_witness :
    book_seats selA1 (some pAlpha) ["AAAAAAAA"] (some 2) =
      some (bookResState selA1 (some pAlpha) ["AAAAAAAA"] (some 2), false,
            bookResMsg selA1 (some pAlpha) ["AAAAAAAA"] (some 2)) ∧
    (bookResState selA1 (some pAlpha) ["AAAAAAAA"] (some 2)).db = selA1.db :=
  ⟨rfl, c1_store_rollback_on_failure.1 selA1 (some pAlpha) ["AAAAAAAA"] (some 2)
    (bookResState selA1 (some pAlpha) ["AAAAAAAA"] (some 2))
    (bookResMsg selA1 (some pAlpha) ["AAAAAAAA"] (some 2)) rfl⟩

/-- C1: counterexample to the claim as stated.  Booking the selected
Free seat A1 with the store's atomic unit failing at the commit returns
a failure, yet the in-memory seat (0,0) has been mutated from status
`"F"` to the booking reference — the SeatMap is *not* unchanged, because
the source mutates `self.seats` inside the loop before `conn.commit()`. -/
theorem c1_counterexample :
    (selA1.seats 0 0).status = "F" ∧
    (book_seats selA1 (some pAlpha) ["AAAAAAAA"] (some 2)).map
        (fun x => (x.2.1, (x.1.seats 0 0).status, (x.1.seats 0 0).bookingRef)) =
      some (false, "AAAAAAAA", some "AAAAAAAA") := by
  exact ⟨by decide, by decide⟩

/-! ## C3 -/

/-- C3: amended version.  Every completed `book_seats` call that reached
reference generation — in particular every store-failure completion —
leaves the generated reference registered in the in-memory registry:
the failure path does not undo `booking_references.add`, so a failed
booking leaves an orphan reference. -/
theorem c3_reference_stays_registered (st : SysState) (p : Passenger)
    (samples : List String) (failAt : Option Nat) (ref : String) (regs : List String)
    (st' : SysState) (flag : Bool) (msg : String)
    (hgen : generate_booking_reference st.bookingRefs samples = some (ref, regs))
    (hsel : st.selected ≠ [])
    (h : book_seats st (some p) samples failAt = some (st', flag, msg)) :
    ref ∈ st'.bookingRefs := by
  rcases book_completions h with ⟨hemp, _, _⟩ | ⟨_, hpass, _, _⟩ |
    ⟨_, q, ref', regs', hq, hgen', hregs, _⟩
  · exact absurd hemp hsel
  · exact absurd hpass (by simp)
  · rw [hgen'] at hgen
    injection hgen with hgen
    injection hgen with h1 h2
    subst h1 h2
    rw [hregs, (gen_ref_spec hgen').2.1]
    simp

/-- C3: witness for the amended theorem at the concrete failing call of
the C1 scenario: the orphan reference `"AAAAAAAA"` is still registered
after the store failure. -/
theorem c3_reference_stays_registered_witness :
    "AAAAAAAA" ∈ (bookResState selA1 (some pAlpha) ["AAAAAAAA"] (some 2)).bookingRefs :=
  c3_reference_stays_registered selA1 pAlpha ["AAAAAAAA"] (some 2) "AAAAAAAA"
    ["AAAAAAAA"]
    (bookResState selA1 (some pAlpha) ["AAAAAAAA"] (some 2)) false
    (bookResMsg selA1 (some pAlpha) ["AAAAAAAA"] (some 2))
    (by decide) (by decide) rfl

/-- C3: counterexample to the claim as stated.  In the concrete failing
booking (store fails at the commit), the reference generated for the
call is still in the registry afterwards, contradicting "the reference
is not left registered". -/
theorem c3_counterexample :
    (book_seats selA1 (some pAlpha) ["AAAAAAAA"] (some 2)).map
        (fun x => (x.2.1, decide ("AAAAAAAA" ∈ x.1.bookingRefs))) =
      some (false, true) := by
  decide

/-! ## C4 -/

/-- C4: amended version.  `generate_booking_reference` has no attempt
cap and no `ReferenceSpaceExhausted` outcome: its `while True` loop runs
until some drawn sample is absent from the registry.  Whenever it
returns, the returned reference is not in the registry and is added to
it; and it does return whenever some drawn sample is fresh.  (The
counterexample shows that against a registry containing every drawn
sample no bound ever stops the loop.) -/
theorem c4_generator_no_retry_bound :
    (∀ (registry samples : List String) (ref : String) (regs : List String),
       generate_booking_reference registry samples = some (ref, regs) →
       ref ∉ registry ∧ regs = ref :: registry) ∧
    (∀ (registry samples : List String), (∃ s ∈ samples, s ∉ registry) →
       ∃ ref regs, generate_booking_reference registry samples = some (ref, regs)) := by
  constructor
  · intro registry samples ref regs h
    exact ⟨(gen_ref_spec h).1, (gen_ref_spec h).2.1⟩
  · intro registry samples h
    exact gen_ref_total h

/-- C4: witness for the amended theorem at a concrete registry and
sample stream: the second draw is fresh, is returned, and is
registered. -/
theorem c4_generator_no_retry_bound_witness :
    ("BBBBBBBB" ∉ (["AAAAAAAA"] : List String) ∧
      ["BBBBBBBB", "AAAAAAAA"] = "BBBBBBBB" :: ["AAAAAAAA"]) ∧
    (∃ ref regs, generate_booking_reference ["AAAAAAAA"] ["AAAAAAAA", "BBBBBBBB"] =
       some (ref, regs)) :=
  ⟨c4_generator_no_retry_bound.1 ["AAAAAAAA"] ["AAAAAAAA", "BBBBBBBB"] "BBBBBBBB"
      ["BBBBBBBB", "AAAAAAAA"] (by decide),
   c4_generator_no_retry_bound.2 ["AAAAAAAA"] ["AAAAAAAA", "BBBBBBBB"]
      ⟨"BBBBBBBB", by decide, by decide⟩⟩

/-- C4: counterexample to the claim as stated.  There is no attempt cap:
for every candidate cap, a run in which every draw collides with the
(one-element) registry is still looping after that many attempts — the
call has not completed, let alone failed with `ReferenceSpaceExhausted`.
(`isSome` says the `while True` loop exited within the supplied draws.) -/
theorem c4_counterexample :
    ¬ ∃ cap : Nat, ∀ samples : List String,
        (∀ s ∈ samples, s ∈ (["AAAAAAAA"] : List String)) →
        cap ≤ samples.length →
        (generate_booking_reference ["AAAAAAAA"] samples).isSome = true := by
  rintro ⟨cap, h⟩
  have hall : ∀ s ∈ List.replicate cap "AAAAAAAA", s ∈ (["AAAAAAAA"] : List String) := by
    intro s hs
    rw [List.eq_of_mem_replicate hs]
    simp
  have hrun := h (List.replicate cap "AAAAAAAA") hall (by simp)
  rw [gen_ref_none hall] at hrun
  simp at hrun

/-! ## C5 -/

/-- C5: amended version.  `book_seats` rejects only an *absent*
passenger-info argument (`passenger_info=None`): with a non-empty
selection it then returns the failure "Passenger information is
required" and leaves the whole state unchanged.  A provided tuple whose
fields are empty strings is truthy in the source and is *not* rejected
(field-level validation lives in the GUI dialog, outside this
operation), as the counterexample shows. -/
theorem c5_rejects_only_absent_passenger (st : SysState) (samples : List String)
    (failAt : Option Nat) (h : st.selected ≠ []) :
    book_seats st none samples failAt =
      some (st, false, "Passenger information is required") := by
  simp [book_seats, h]

/-- C5: witness for the amended theorem at the concrete one-seat
selection. -/
theorem c5_rejects_only_absent_passenger_witness :
    selA1.selected ≠ [] ∧
    book_seats selA1 none [] none =
      some (selA1, false, "Passenger information is required") :=
  ⟨by decide, c5_rejects_only_absent_passenger selA1 [] none (by decide)⟩

/-- C5: counterexample to the claim as stated.  Booking the selected
Free seat A1 with passenger fields `("", "", "")` — all empty strings —
does not fail with a missing-passenger-info error: it succeeds, mutates
the SeatMap (seat A1 becomes Reserved) and the store (one booking header
and one seat link are committed). -/
theorem c5_counterexample :
    (selA1.seats 0 0).status = "F" ∧
    (book_seats selA1 (some ⟨"", "", ""⟩) ["AAAAAAAA"] none).map
        (fun x => (x.2.1, (x.1.seats 0 0).status, countSeatsFor x.1.db "AAAAAAAA",
                   x.1.db.bookings.length)) =
      some (true, "AAAAAAAA", 1, 1) := by
  exact ⟨by decide, by decide⟩

/-! ## C8 -/

/-- C8: amended version.  The SelectionBuffer is cleared exactly by a
*successful* `book_seats`/`free_seats`; every failure completion —
validation failure or store failure — leaves the selection untouched.
(So the buffer is not empty after every completed attempt, as the
counterexample shows.) -/
theorem c8_buffer_cleared_iff_success :
    (∀ (st : SysState) (pass : Option Passenger) (samples : List String)
       (failAt : Option Nat) (st' : SysState) (flag : Bool) (msg : String),
       book_seats st pass samples failAt = some (st', flag, msg) →
       st'.selected = if flag then [] else st.selected) ∧
    (∀ (st : SysState) (failAt : Option Nat) (st' : SysState) (flag : Bool) (msg : String),
       free_seats st failAt = some (st', flag, msg) →
       st'.selected = if flag then [] else st.selected) := by
  constructor
  · intro st pass samples failAt st' flag msg h
    rcases book_completions h with ⟨_, rfl, rfl⟩ | ⟨_, _, rfl, rfl⟩ |
      ⟨_, p, ref, regs, _, _, _, ⟨rfl, _, hselv, _⟩ | ⟨rfl, tx0, g, tx, names, _, _, _, rfl⟩⟩
    · rfl
    · rfl
    · simpa using hselv
    · rfl
  · intro st failAt st' flag msg h
    rcases free_completions h with ⟨_, rfl, rfl⟩ | ⟨_, rfl, _, hselv, _⟩ |
      ⟨_, rfl, g, tx, refs, freed, tx2, regs, _, _, _, rfl⟩
    · rfl
    · simpa using hselv
    · rfl

/-- C8: witness for the amended theorem at a concrete failed validation:
passenger info absent, selection `[(0,0)]` retained. -/
theorem c8_buffer_cleared_iff_success_witness :
    (bookResState selA1 none [] none).selected =
      if false then [] else selA1.selected :=
  c8_buffer_cleared_iff_success.1 selA1 none [] none
    (bookResState selA1 none [] none) false (bookResMsg selA1 none [] none) rfl

/-- C8: counterexample to the claim as stated.  A `book_seats` attempt
that fails validation (no passenger info) completes with the selection
buffer still holding seat (0,0) — the buffer is *not* cleared after
every completed attempt. -/
theorem c8_counterexample :
    (book_seats selA1 none [] none).map (fun x => (x.2.1, x.1.selected)) =
      some (false, [(0, 0)]) := by
  decide

/-! ## C9 -/

/-- C9: amended version.  For an out-of-range position, `get_seat_status`
returns the structured message "Invalid seat position"; but
`toggle_seat_selection` performs no bounds check at all — it indexes
`self.seats[row][col]` directly, and on an out-of-range position the
`IndexError` escapes the method (modelled by `none`) instead of a
structured failure. -/
theorem c9_status_guarded_toggle_unguarded (st : SysState) (row col : Nat)
    (h : ¬ (row < num_rows ∧ col < num_cols)) :
    get_seat_status st row col = "Invalid seat position" ∧
    toggle_seat_selection st row col = none :=
  ⟨by simp [get_seat_status, h], by simp [toggle_seat_selection, h]⟩

/-- C9: witness for the amended theorem at the concrete out-of-range
position (7, 0) of a fresh system. -/
theorem c9_status_guarded_toggle_unguarded_witness :
    ¬ ((7 : Nat) < num_rows ∧ (0 : Nat) < num_cols) ∧
    (get_seat_status initialState 7 0 = "Invalid seat position" ∧
     toggle_seat_selection initialState 7 0 = none) :=
  ⟨by decide, c9_status_guarded_toggle_unguarded initialState 7 0 (by decide)⟩

/-- C9: counterexample to the claim as stated.  `toggle_seat_selection`
at the out-of-range position (7, 0) raises an uncaught `IndexError`
(result `none` — the exception crosses the service boundary) instead of
returning a structured `OutOfRange` failure. -/
theorem c9_counterexample : toggle_seat_selection initialState 7 0 = none := rfl

/-! ## C2 -/

theorem runOp_some {failAt : Option Nat} {tx : Tx} {f : DB → DB} {tx' : Tx}
    (h : runOp failAt tx f = some tx') :
    tx' = ⟨f tx.pending, tx.opIdx + 1⟩ ∧ ¬ failAt = some tx.opIdx := by
  unfold runOp at h
  split at h
  · exact Option.noConfusion h
  · next hne =>
    injection h with h1
    exact ⟨h1.symm, hne⟩

theorem bookLoop_pending_mono {ref : String} {failAt : Option Nat} :
    ∀ {sel : List (Nat × Nat)} {g : Grid} {tx : Tx} {ns : List String}
      {g' : Grid} {tx' : Tx} {ns' : List String},
      bookLoop ref failAt sel g tx ns = .ok g' tx' ns' →
      ∀ l ∈ tx.pending.bookedSeats, l ∈ tx'.pending.bookedSeats := by
  intro sel
  induction sel with
  | nil =>
    intro g tx ns g' tx' ns' h l hl
    rw [bookLoop] at h
    injection h with h1 h2 h3
    rw [← h2]
    exact hl
  | cons q rest ih =>
    obtain ⟨row, col⟩ := q
    intro g tx ns g' tx' ns' h l hl
    rw [bookLoop] at h
    split at h
    · split at h
      · split at h
        · exact BookLoopRes.noConfusion h
        · next tx1 hop =>
          obtain ⟨htx1, _⟩ := runOp_some hop
          refine ih h l ?_
          rw [htx1]
          exact List.mem_append_left _ hl
      · exact ih h l hl
    · exact BookLoopRes.noConfusion h

theorem bookLoop_bookings_const {ref : String} {failAt : Option Nat} :
    ∀ {sel : List (Nat × Nat)} {g : Grid} {tx : Tx} {ns : List String}
      {g' : Grid} {tx' : Tx} {ns' : List String},
      bookLoop ref failAt sel g tx ns = .ok g' tx' ns' →
      tx'.pending.bookings = tx.pending.bookings := by
  intro sel
  induction sel with
  | nil =>
    intro g tx ns g' tx' ns' h
    rw [bookLoop] at h
    injection h with h1 h2 h3
    rw [← h2]
  | cons q rest ih =>
    obtain ⟨row, col⟩ := q
    intro g tx ns g' tx' ns' h
    rw [bookLoop] at h
    split at h
    · split at h
      · split at h
        · exact BookLoopRes.noConfusion h
        · next tx1 hop =>
          obtain ⟨htx1, _⟩ := runOp_some hop
          rw [ih h, htx1]
          rfl
      · exact ih h
    · exact BookLoopRes.noConfusion h

theorem bookLoop_adds_link {ref : String} {failAt : Option Nat} :
    ∀ {sel : List (Nat × Nat)} {g : Grid} {tx : Tx} {ns : List String}
      {g' : Grid} {tx' : Tx} {ns' : List String},
      bookLoop ref failAt sel g tx ns = .ok g' tx' ns' →
      (∃ q ∈ sel, (g q.1 q.2).status = "F") →
      ∃ l ∈ tx'.pending.bookedSeats, l.ref = ref := by
  intro sel
  induction sel with
  | nil =>
    intro g tx ns g' tx' ns' h hfree
    simp at hfree
  | cons q rest ih =>
    obtain ⟨row, col⟩ := q
    intro g tx ns g' tx' ns' h hfree
    rw [bookLoop] at h
    split at h
    · split at h
      · split at h
        · exact BookLoopRes.noConfusion h
        · next tx1 hop =>
          obtain ⟨htx1, _⟩ := runOp_some hop
          refine ⟨⟨ref, rowLetter row, col + 1, (g row col).seatType⟩, ?_, rfl⟩
          refine bookLoop_pending_mono h _ ?_
          rw [htx1]
          exact List.mem_append_right _ (by simp [insertLink])
      · next hnf =>
        refine ih h ?_
        rcases hfree with ⟨q, hq, hqs⟩
        rcases List.mem_cons.mp hq with rfl | hq'
        · exact absurd hqs hnf
        · exact ⟨q, hq', hqs⟩
    · exact BookLoopRes.noConfusion h

/-- C2: amended version.  A successful `book_seats` over a selection
containing at least one Free seat does create its booking header with at
least one attached seat link (`countSeatsFor ≥ 1`); but the invariant
claimed for *all* reachable states fails, because a successful
`book_seats` whose selection contains no Free seat creates a header with
zero seat links (see the counterexample). -/
theorem c2_booking_has_seat_when_free_selected (st : SysState) (p : Passenger)
    (samples : List String) (failAt : Option Nat) (st' : SysState) (msg : String)
    (h : book_seats st (some p) samples failAt = some (st', true, msg))
    (hfree : ∃ q ∈ st.selected, (st.seats q.1 q.2).status = "F") :
    ∃ ref regs, generate_booking_reference st.bookingRefs samples = some (ref, regs) ∧
      (∃ b ∈ st'.db.bookings, b.ref = ref) ∧
      1 ≤ countSeatsFor st'.db ref := by
  rcases book_completions h with ⟨_, hfl, _⟩ | ⟨_, hpass, _, _⟩ |
    ⟨_, q, ref, regs, hq, hgen, _, ⟨hfl, _⟩ | ⟨_, tx0, g, tx, names, hop, hloop, _, rfl⟩⟩
  · exact absurd hfl (by simp)
  · exact absurd hpass (by simp)
  · exact absurd hfl (by simp)
  · injection hq with hq
    subst hq
    refine ⟨ref, regs, hgen, ?_, ?_⟩
    · obtain ⟨htx0, _⟩ := runOp_some hop
      have hb : tx.pending.bookings = tx0.pending.bookings := bookLoop_bookings_const hloop
      show ∃ b ∈ tx.pending.bookings, b.ref = ref
      refine ⟨⟨ref, p.passport, p.firstName, p.lastName⟩, ?_, rfl⟩
      rw [hb, htx0]
      exact List.mem_append_right _ (by simp [insertBooking])
    · obtain ⟨l, hl, hlref⟩ := bookLoop_adds_link hloop hfree
      have hmem : l ∈ (tx.pending.bookedSeats.filter (fun x => x.ref = ref)) :=
        List.mem_filter.mpr ⟨hl, by simp [hlref]⟩
      show 1 ≤ countSeatsFor tx.pending ref
      exact List.length_pos.mpr (List.ne_nil_of_mem hmem)

/-- C2: witness for the amended theorem — booking the selected Free seat
A1 yields a committed booking with one attached seat link. -/
theorem c2_booking_has_seat_when_free_selected_witness :
    ∃ ref regs, generate_booking_reference selA1.bookingRefs ["AAAAAAAA"] = some (ref, regs) ∧
      (∃ b ∈ (bookResState selA1 (some pAlpha) ["AAAAAAAA"] none).db.bookings, b.ref = ref) ∧
      1 ≤ countSeatsFor (bookResState selA1 (some pAlpha) ["AAAAAAAA"] none).db ref :=
  c2_booking_has_seat_when_free_selected selA1 pAlpha ["AAAAAAAA"] none
    (bookResState selA1 (some pAlpha) ["AAAAAAAA"] none)
    (bookResMsg selA1 (some pAlpha) ["AAAAAAAA"] none) rfl
    ⟨(0, 0), by decide, by decide⟩

/-- State reached by: select A1, book it (reference `"AAAAAAAA"`),
select the now-Reserved A1 again (Reserved seats are selectable), book
again (reference `"BBBBBBBB"`).  Every step is a `toggle_seat_selection`
or `book_seats` call on the previous state. -/
def c2ZeroLinkState : SysState :=
  stepBook (stepToggle (stepBook selA1 pAlpha ["AAAAAAAA"]) 0 0) pBeta ["BBBBBBBB"]

/-- C2: counterexample to the claim as stated.  In the reachable state
`c2ZeroLinkState`, the second `book_seats` call — whose selection
contained no Free seat (A1 was already Reserved) — completed
successfully and created booking header `"BBBBBBBB"` with *zero*
attached seat links: `countSeatsFor = 0`, violating the invariant. -/
theorem c2_counterexample :
    (book_seats (stepToggle (stepBook selA1 pAlpha ["AAAAAAAA"]) 0 0) (some pBeta)
        ["BBBBBBBB"] none).map (fun x => x.2.1) = some true ∧
    (∃ b ∈ c2ZeroLinkState.db.bookings, b.ref = "BBBBBBBB") ∧
    countSeatsFor c2ZeroLinkState.db "BBBBBBBB" = 0 := by
  refine ⟨by decide, by decide, by decide⟩

/-! ## C6 -/

theorem updateSeat_self (g : Grid) (row col : Nat) (s : Seat) :
    updateSeat g row col s row col = s := by
  simp [updateSeat]

theorem updateSeat_other (g : Grid) (row col : Nat) (s : Seat) {r c : Nat}
    (h : ¬(r = row ∧ c = col)) : updateSeat g row col s r c = g r c := by
  simp only [updateSeat, if_neg h]

theorem bookLoop_not_mem {ref : String} {failAt : Option Nat} :
    ∀ {sel : List (Nat × Nat)} {g : Grid} {tx : Tx} {ns : List String}
      {g' : Grid} {tx' : Tx} {ns' : List String},
      bookLoop ref failAt sel g tx ns = .ok g' tx' ns' →
      ∀ q : Nat × Nat, q ∉ sel → g' q.1 q.2 = g q.1 q.2 := by
  intro sel
  induction sel with
  | nil =>
    intro g tx ns g' tx' ns' h q _
    rw [bookLoop] at h
    injection h with h1 h2 h3
    rw [← h1]
  | cons hd rest ih =>
    obtain ⟨row, col⟩ := hd
    intro g tx ns g' tx' ns' h q hq
    have hq1 : q ≠ (row, col) := fun hc => hq (hc ▸ List.mem_cons_self _ _)
    have hq2 : q ∉ rest := fun hc => hq (List.mem_cons_of_mem _ hc)
    rw [bookLoop] at h
    split at h
    · split at h
      · split at h
        · exact BookLoopRes.noConfusion h
        · next tx1 hop =>
          rw [ih h q hq2]
          refine updateSeat_other _ _ _ _ ?_
          intro ⟨hr, hc⟩
          exact hq1 (by rw [Prod.ext_iff]; exact ⟨hr, hc⟩)
      · exact ih h q hq2
    · exact BookLoopRes.noConfusion h

theorem bookLoop_sets_free {ref : String} {failAt : Option Nat} :
    ∀ {sel : List (Nat × Nat)} {g : Grid} {tx : Tx} {ns : List String}
      {g' : Grid} {tx' : Tx} {ns' : List String},
      bookLoop ref failAt sel g tx ns = .ok g' tx' ns' → sel.Nodup →
      ∀ q ∈ sel, (g q.1 q.2).status = "F" →
        g' q.1 q.2 = ⟨ref, (g q.1 q.2).seatType, some ref⟩ := by
  intro sel
  induction sel with
  | nil =>
    intro g tx ns g' tx' ns' h _ q hq
    exact absurd hq (List.not_mem_nil q)
  | cons hd rest ih =>
    obtain ⟨row, col⟩ := hd
    intro g tx ns g' tx' ns' h hnd q hq hqF
    have hhd : (row, col) ∉ rest := (List.nodup_cons.mp hnd).1
    have hrest : rest.Nodup := (List.nodup_cons.mp hnd).2
    rw [bookLoop] at h
    split at h
    · split at h
      · next hF =>
        split at h
        · exact BookLoopRes.noConfusion h
        · next tx1 hop =>
          rcases List.mem_cons.mp hq with rfl | hq'
          · simpa [updateSeat_self] using bookLoop_not_mem h (row, col) hhd
          · have hqne : q ≠ (row, col) := fun hc => hhd (hc ▸ hq')
            have hgq : updateSeat g row col ⟨ref, (g row col).seatType, some ref⟩ q.1 q.2 = g q.1 q.2 := by
              refine updateSeat_other _ _ _ _ ?_
              intro ⟨hr, hc⟩
              exact hqne (by rw [Prod.ext_iff]; exact ⟨hr, hc⟩)
            have := ih h hrest q hq' (by rw [hgq]; exact hqF)
            rw [this, hgq]
      · next hF =>
        rcases List.mem_cons.mp hq with rfl | hq'
        · exact absurd hqF hF
        · exact ih h hrest q hq' hqF
    · exact BookLoopRes.noConfusion h

/-- C6: every successful `book_seats` generates exactly one reference —
the single result of `generate_booking_reference`, fresh for the
registry — and books *every* selected currently-Free seat under that one
shared reference: each such seat's status and `bookingRef` become that
reference, so any two of them report the same reference afterwards. -/
theorem c6_one_shared_reference (st : SysState) (p : Passenger)
    (samples : List String) (failAt : Option Nat) (st' : SysState) (msg : String)
    (hnd : st.selected.Nodup)
    (h : book_seats st (some p) samples failAt = some (st', true, msg)) :
    ∃ ref regs, generate_booking_reference st.bookingRefs samples = some (ref, regs) ∧
      ref ∉ st.bookingRefs ∧
      (∀ q ∈ st.selected, (st.seats q.1 q.2).status = "F" →
        st'.seats q.1 q.2 = ⟨ref, (st.seats q.1 q.2).seatType, some ref⟩) ∧
      (∀ q1 ∈ st.selected, ∀ q2 ∈ st.selected,
        (st.seats q1.1 q1.2).status = "F" → (st.seats q2.1 q2.2).status = "F" →
        (st'.seats q1.1 q1.2).bookingRef = (st'.seats q2.1 q2.2).bookingRef) := by
  rcases book_completions h with ⟨_, hfl, _⟩ | ⟨_, hpass, _, _⟩ |
    ⟨_, q, ref, regs, hq, hgen, _, ⟨hfl, _⟩ | ⟨_, tx0, g, tx, names, hop, hloop, _, rfl⟩⟩
  · exact absurd hfl (by simp)
  · exact absurd hpass (by simp)
  · exact absurd hfl (by simp)
  · injection hq with hq
    subst hq
    have hsets := bookLoop_sets_free hloop hnd
    refine ⟨ref, regs, hgen, (gen_ref_spec hgen).1, hsets, ?_⟩
    intro q1 hq1 q2 hq2 h1 h2
    show (g q1.1 q1.2).bookingRef = (g q2.1 q2.2).bookingRef
    rw [hsets q1 hq1 h1, hsets q2 hq2 h2]

/-- Seats A1 and A2 both selected on a fresh system. -/
def selA1A2 : SysState := stepToggle selA1 0 1

/-- C6: witness — booking the selected group {A1, A2} on a fresh system:
the amended conclusions hold at this concrete input, and evaluating
`get_seat_status` afterwards shows both seats reporting the single
shared reference `"AAAAAAAA"`. -/
theorem c6_one_shared_reference_witness :
    (∃ ref regs, generate_booking_reference selA1A2.bookingRefs ["AAAAAAAA"] = some (ref, regs) ∧
      ref ∉ selA1A2.bookingRefs ∧
      (∀ q ∈ selA1A2.selected, (selA1A2.seats q.1 q.2).status = "F" →
        (bookResState selA1A2 (some pAlpha) ["AAAAAAAA"] none).seats q.1 q.2 =
          ⟨ref, (selA1A2.seats q.1 q.2).seatType, some ref⟩) ∧
      (∀ q1 ∈ selA1A2.selected, ∀ q2 ∈ selA1A2.selected,
        (selA1A2.seats q1.1 q1.2).status = "F" → (selA1A2.seats q2.1 q2.2).status = "F" →
        ((bookResState selA1A2 (some pAlpha) ["AAAAAAAA"] none).seats q1.1 q1.2).bookingRef =
          ((bookResState selA1A2 (some pAlpha) ["AAAAAAAA"] none).seats q2.1 q2.2).bookingRef)) ∧
    get_seat_status (bookResState selA1A2 (some pAlpha) ["AAAAAAAA"] none) 0 0 =
      "Seat A1 is Reserved (First Class). Booking Reference: AAAAAAAA, Passenger: John Doe, Passport: P1" ∧
    get_seat_status (bookResState selA1A2 (some pAlpha) ["AAAAAAAA"] none) 0 1 =
      "Seat A2 is Reserved (First Class). Booking Reference: AAAAAAAA, Passenger: John Doe, Passport: P1" :=
  ⟨c6_one_shared_reference selA1A2 pAlpha ["AAAAAAAA"] none
      (bookResState selA1A2 (some pAlpha) ["AAAAAAAA"] none)
      (bookResMsg selA1A2 (some pAlpha) ["AAAAAAAA"] none) (by decide) rfl,
   by decide, by decide⟩

/-! ## C10 -/

theorem refChoice_wf (f : Fin 8 → Fin 36) : is_booking_reference (refChoice f) = true := by
  have hlen : refAlphabet.length = 36 := by decide
  unfold is_booking_reference refChoice
  refine Bool.and_eq_true_iff.mpr ⟨?_, ?_⟩
  · simp [String.length]
  · rw [List.all_eq_true]
    intro c hc
    simp only [String.data] at hc
    rw [List.mem_map] at hc
    obtain ⟨i, _, rfl⟩ := hc
    have hi : (f i : Nat) < refAlphabet.length := by rw [hlen]; exact (f i).isLt
    rw [List.getD_eq_getElem refAlphabet 'A' hi]
    exact decide_eq_true (List.getElem_mem hi)

theorem updateSeat_wf {g : Grid} {row col : Nat} {s : Seat}
    (hg : GridWF g) (hs : SeatWF s) : GridWF (updateSeat g row col s) := by
  intro r c hr hc
  by_cases h : r = row ∧ c = col
  · rw [updateSeat, if_pos h]
    exact hs
  · rw [updateSeat_other g row col s h]
    exact hg r c hr hc

/-- The grid carried by a `bookLoop` outcome is well-formed (vacuous for
a crash). -/
def bookResWF : BookLoopRes → Prop
  | .crash => True
  | .dbfail g => GridWF g
  | .ok g _ _ => GridWF g

theorem bookLoop_wf (ref : String) (failAt : Option Nat)
    (href : is_booking_reference ref = true) :
    ∀ (sel : List (Nat × Nat)) (g : Grid) (tx : Tx) (ns : List String),
      GridWF g → bookResWF (bookLoop ref failAt sel g tx ns) := by
  intro sel
  induction sel with
  | nil => intro g tx ns hg; exact hg
  | cons hd rest ih =>
    obtain ⟨row, col⟩ := hd
    intro g tx ns hg
    rw [bookLoop]
    split
    · split
      · have hup : GridWF (updateSeat g row col ⟨ref, (g row col).seatType, some ref⟩) :=
          updateSeat_wf hg (Or.inr ⟨href, rfl⟩)
        split
        · exact hup
        · exact ih _ _ _ hup
      · exact ih _ _ _ hg
    · trivial

/-- The grid carried by a `freeLoop1` outcome is well-formed (vacuous
for a crash). -/
def freeResWF : FreePh1 → Prop
  | .crash => True
  | .dbfail g => GridWF g
  | .ok g _ _ _ => GridWF g

theorem freeLoop1_wf (failAt : Option Nat) :
    ∀ (sel : List (Nat × Nat)) (g : Grid) (tx : Tx) (refs freed : List String),
      GridWF g → freeResWF (freeLoop1 failAt sel g tx refs freed) := by
  intro sel
  induction sel with
  | nil => intro g tx refs freed hg; exact hg
  | cons hd rest ih =>
    obtain ⟨row, col⟩ := hd
    intro g tx refs freed hg
    rw [freeLoop1]
    split
    · split
      · have hup : GridWF (updateSeat g row col ⟨"F", (g row col).seatType, none⟩) :=
          updateSeat_wf hg (Or.inl ⟨by simp, rfl⟩)
        split
        · exact hup
        · exact ih _ _ _ _ hup
      · exact ih _ _ _ _ hg
    · trivial

theorem load_bookings_wf :
    ∀ {links : List Link} {g g' : Grid},
      (∀ l ∈ links, is_booking_reference l.ref = true) →
      load_bookings g links = some g' → GridWF g → GridWF g' := by
  intro links
  induction links with
  | nil =>
    intro g g' _ h hg
    rw [load_bookings] at h
    injection h with h1
    rw [← h1]
    exact hg
  | cons l rest ih =>
    intro g g' hwf h hg
    rw [load_bookings] at h
    split at h
    · exact Option.noConfusion h
    · next ri hri =>
      refine ih (fun x hx => hwf x (List.mem_cons_of_mem _ hx)) h ?_
      split
      · exact updateSeat_wf hg (Or.inr ⟨hwf l (List.mem_cons_self _ _), rfl⟩)
      · exact hg

/-- C10: the two-shape seat invariant.  Every seat of the initial grid
is a plain-status tuple; every string the reference sampler can draw
passes `is_booking_reference`; a completed `book_seats` (with samples
drawn from the sampler), a completed `free_seats`, and a completed
startup `load_bookings` over app-written link rows each preserve the
invariant that a seat is either `(s, t, None)` with `s ∈ {F, A, S}` or
`(r, t, r)` with `r` an 8-character uppercase-alphanumeric reference
stored identically in both fields; and for well-formed seats the
`is_booking_reference` string-shape check is the sole discriminator
between the two shapes. -/
theorem c10_seat_shape_invariant :
    GridWF initGrid ∧
    (∀ f : Fin 8 → Fin 36, is_booking_reference (refChoice f) = true) ∧
    (∀ (st : SysState) (pass : Option Passenger) (samples : List String)
       (failAt : Option Nat) (st' : SysState) (flag : Bool) (msg : String),
       (∀ s ∈ samples, is_booking_reference s = true) →
       book_seats st pass samples failAt = some (st', flag, msg) →
       GridWF st.seats → GridWF st'.seats) ∧
    (∀ (st : SysState) (failAt : Option Nat) (st' : SysState) (flag : Bool) (msg : String),
       free_seats st failAt = some (st', flag, msg) →
       GridWF st.seats → GridWF st'.seats) ∧
    (∀ (g : Grid) (links : List Link) (g' : Grid),
       (∀ l ∈ links, is_booking_reference l.ref = true) →
       load_bookings g links = some g' → GridWF g → GridWF g') ∧
    (∀ s : Seat, SeatWF s →
       (is_booking_reference s.status = true ↔ s.bookingRef = some s.status) ∧
       (is_booking_reference s.status = false ↔ s.bookingRef = none)) := by
  refine ⟨?_, refChoice_wf, ?_, ?_, fun g links g' => load_bookings_wf, ?_⟩
  · intro r c _ _
    unfold initGrid initSeat
    split
    · exact Or.inl ⟨by simp, rfl⟩
    · split
      · exact Or.inl ⟨by simp, rfl⟩
      · split
        · exact Or.inl ⟨by simp, rfl⟩
        · exact Or.inl ⟨by simp, rfl⟩
  · intro st pass samples failAt st' flag msg hsam h hg
    rcases book_completions h with ⟨_, _, rfl⟩ | ⟨_, _, _, rfl⟩ |
      ⟨_, p, ref, regs, _, hgen, _,
        ⟨_, _, _, hseats | ⟨tx0, g, _, hloop, hseats⟩⟩ | ⟨_, tx0, g, tx, names, _, hloop, _, rfl⟩⟩
    · exact hg
    · exact hg
    · exact hseats ▸ hg
    · have href : is_booking_reference ref = true := hsam ref (gen_ref_spec hgen).2.2
      rcases hloop with hloop | ⟨tx', names', hloop⟩
      · have hres := bookLoop_wf ref failAt href st.selected st.seats tx0 [] hg
        rw [hloop] at hres
        exact hseats ▸ hres
      · have hres := bookLoop_wf ref failAt href st.selected st.seats tx0 [] hg
        rw [hloop] at hres
        exact hseats ▸ hres
    · have href : is_booking_reference ref = true := hsam ref (gen_ref_spec hgen).2.2
      have hres := bookLoop_wf ref failAt href st.selected st.seats tx0 [] hg
      rw [hloop] at hres
      exact hres
  · intro st failAt st' flag msg h hg
    rcases free_completions h with ⟨_, _, rfl⟩ |
      ⟨_, _, _, _, g, hloop | ⟨tx, refs, freed, hloop⟩, hseats⟩ |
      ⟨_, _, g, tx, refs, freed, tx2, regs, hloop, _, _, rfl⟩
    · exact hg
    · have hres := freeLoop1_wf failAt st.selected st.seats ⟨st.db, 0⟩ [] [] hg
      rw [hloop] at hres
      exact hseats ▸ hres
    · have hres := freeLoop1_wf failAt st.selected st.seats ⟨st.db, 0⟩ [] [] hg
      rw [hloop] at hres
      exact hseats ▸ hres
    · have hres := freeLoop1_wf failAt st.selected st.seats ⟨st.db, 0⟩ [] [] hg
      rw [hloop] at hres
      exact hres
  · rintro s (⟨hmem, hnone⟩ | ⟨htrue, hsome⟩)
    · have hfalse : is_booking_reference s.status = false := by
        rcases List.mem_cons.mp hmem with h1 | hmem'
        · rw [h1]; decide
        · rcases List.mem_cons.mp hmem' with h2 | hmem''
          · rw [h2]; decide
          · rcases List.mem_cons.mp hmem'' with h3 | habs
            · rw [h3]; decide
            · exact absurd habs (List.not_mem_nil _)
      refine ⟨⟨fun ht => absurd ht (by rw [hfalse]; simp), fun hb => ?_⟩,
              ⟨fun _ => hnone, fun _ => hfalse⟩⟩
      rw [hnone] at hb
      exact Option.noConfusion hb
    · refine ⟨⟨fun _ => hsome, fun _ => htrue⟩,
              ⟨fun hf => absurd htrue (by rw [hf]; simp), fun hn => ?_⟩⟩
      rw [hsome] at hn
      exact Option.noConfusion hn

/-- C10: witness — the invariant theorem applied at concrete inputs:
seat (0,0) of the initial grid, a concrete sampler draw, and seat (0,0)
after the concrete successful booking of A1 (whose well-formedness is
obtained from the preservation part of the theorem). -/
theorem c10_seat_shape_invariant_witness :
    SeatWF (initGrid 0 0) ∧
    is_booking_reference (refChoice (fun _ => (0 : Fin 36))) = true ∧
    SeatWF ((bookResState selA1 (some pAlpha) ["AAAAAAAA"] none).seats 0 0) := by
  refine ⟨c10_seat_shape_invariant.1 0 0 (by decide) (by decide),
          c10_seat_shape_invariant.2.1 _, ?_⟩
  have hwf : GridWF (bookResState selA1 (some pAlpha) ["AAAAAAAA"] none).seats :=
    c10_seat_shape_invariant.2.2.1 selA1 (some pAlpha) ["AAAAAAAA"] none
      (bookResState selA1 (some pAlpha) ["AAAAAAAA"] none) true
      (bookResMsg selA1 (some pAlpha) ["AAAAAAAA"] none)
      (by decide) rfl c10_seat_shape_invariant.1
  exact hwf 0 0 (by decide) (by decide)

/-! ## C7 -/

/-- Number of `booked_seats` rows matching one (reference, row-letter,
1-based column) key — the rows deleted by one `free_seats` DELETE. -/
def matchCount (db : DB) (r : String) (rl : Char) (c : Nat) : Nat :=
  (db.bookedSeats.filter (fun l => l.ref = r ∧ l.rowL = rl ∧ l.col = c)).length

theorem length_filter_filter_of_imp {α : Type} (p q : α → Bool)
    (h : ∀ a, p a = true → q a = true) :
    ∀ l : List α, ((l.filter q).filter p).length = (l.filter p).length := by
  intro l
  induction l with
  | nil => rfl
  | cons x xs ih =>
    cases hq : q x with
    | true =>
      cases hp : p x with
      | true => simp [List.filter_cons, hq, hp, ih, -List.filter_filter]
      | false => simp [List.filter_cons, hq, hp, ih, -List.filter_filter]
    | false =>
      have hp : p x = false := by
        cases hpx : p x with
        | true => exact absurd (h x hpx) (by simp [hq])
        | false => rfl
      simp [List.filter_cons, hq, hp, ih, -List.filter_filter]

theorem length_filter_split {α : Type} (p k : α → Bool)
    (h : ∀ a, k a = true → p a = true) :
    ∀ l : List α,
      ((l.filter (fun a => !(k a))).filter p).length + (l.filter k).length
        = (l.filter p).length := by
  intro l
  induction l with
  | nil => rfl
  | cons x xs ih =>
    cases hk : k x with
    | true =>
      have hp : p x = true := h x hk
      simp only [List.filter_cons, hk, hp]
      simp only [Bool.not_true, Bool.false_eq_true, if_false, if_true, List.length_cons]
      omega
    | false =>
      cases hp : p x with
      | true =>
        simp [List.filter_cons, hk, hp, -List.filter_filter]
        omega
      | false =>
        simp [List.filter_cons, hk, hp, -List.filter_filter]
        exact ih

theorem count_deleteLink_other {db : DB} {r r0 : String} {rl : Char} {c : Nat}
    (h : r0 ≠ r) : countSeatsFor (deleteLink r0 rl c db) r = countSeatsFor db r := by
  simp only [countSeatsFor, deleteLink]
  refine length_filter_filter_of_imp _ _ ?_ db.bookedSeats
  intro a ha
  simp only [decide_eq_true_eq] at ha ⊢
  rintro ⟨h1, _⟩
  exact h (by rw [← h1, ha])

theorem count_deleteLink_self (db : DB) (r : String) (rl : Char) (c : Nat) :
    countSeatsFor (deleteLink r rl c db) r + matchCount db r rl c = countSeatsFor db r := by
  simp only [countSeatsFor, deleteLink, matchCount, decide_not]
  refine length_filter_split _ _ ?_ db.bookedSeats
  intro a ha
  simp only [decide_eq_true_eq] at ha ⊢
  exact ha.1

theorem matchCount_deleteLink_other {db : DB} {r r0 : String} {rl rl0 : Char} {c c0 : Nat}
    (h : ¬(r = r0 ∧ rl = rl0 ∧ c = c0)) :
    matchCount (deleteLink r0 rl0 c0 db) r rl c = matchCount db r rl c := by
  simp only [matchCount, deleteLink]
  refine length_filter_filter_of_imp _ _ ?_ db.bookedSeats
  intro a ha
  simp only [decide_eq_true_eq] at ha ⊢
  rintro ⟨h1, h2, h3⟩
  exact h ⟨by rw [← ha.1, h1], by rw [← ha.2.1, h2], by rw [← ha.2.2, h3]⟩

theorem countSeatsFor_deleteBookingRow (db : DB) (r r0 : String) :
    countSeatsFor (deleteBookingRow r0 db) r = countSeatsFor db r := rfl

theorem matchCount_deleteBookingRow (db : DB) (r r0 : String) (rl : Char) (c : Nat) :
    matchCount (deleteBookingRow r0 db) r rl c = matchCount db r rl c := rfl

theorem header_deleteBookingRow_other {db : DB} {r r0 : String} (h : r ≠ r0) :
    (∃ b ∈ (deleteBookingRow r0 db).bookings, b.ref = r) ↔
      (∃ b ∈ db.bookings, b.ref = r) := by
  unfold deleteBookingRow
  constructor
  · rintro ⟨b, hb, hbr⟩
    exact ⟨b, (List.mem_filter.mp hb).1, hbr⟩
  · rintro ⟨b, hb, hbr⟩
    refine ⟨b, List.mem_filter.mpr ⟨hb, ?_⟩, hbr⟩
    simp [hbr, h]

theorem rowLetter_inj : ∀ r1 < num_rows, ∀ r2 < num_rows,
    rowLetter r1 = rowLetter r2 → r1 = r2 := by decide

theorem mem_addUnique (xs : List String) (x y : String) :
    y ∈ addUnique xs x ↔ y ∈ xs ∨ y = x := by
  unfold addUnique
  split
  · next hx =>
    constructor
    · exact fun h => Or.inl h
    · rintro (h | rfl)
      · exact h
      · exact hx
  · simp

theorem nodup_addUnique {xs : List String} (h : xs.Nodup) (x : String) :
    (addUnique xs x).Nodup := by
  unfold addUnique
  split
  · exact h
  · next hx =>
    rw [List.nodup_append]
    exact ⟨h, List.nodup_singleton x, by simpa using hx⟩

theorem freeLoop1_inrange {failAt : Option Nat} :
    ∀ {sel : List (Nat × Nat)} {g : Grid} {tx : Tx} {refs freed : List String}
      {g' : Grid} {tx' : Tx} {refs' freed' : List String},
      freeLoop1 failAt sel g tx refs freed = .ok g' tx' refs' freed' →
      ∀ q ∈ sel, q.1 < num_rows ∧ q.2 < num_cols := by
  intro sel
  induction sel with
  | nil =>
    intro g tx refs freed g' tx' refs' freed' _ q hq
    exact absurd hq (List.not_mem_nil q)
  | cons hd rest ih =>
    obtain ⟨row, col⟩ := hd
    intro g tx refs freed g' tx' refs' freed' h q hq
    rw [freeLoop1] at h
    split at h
    · next hrange =>
      rcases List.mem_cons.mp hq with rfl | hq'
      · exact hrange
      · split at h
        · split at h
          · exact FreePh1.noConfusion h
          · exact ih h q hq'
        · exact ih h q hq'
    · exact FreePh1.noConfusion h

theorem freeLoop1_not_mem {failAt : Option Nat} :
    ∀ {sel : List (Nat × Nat)} {g : Grid} {tx : Tx} {refs freed : List String}
      {g' : Grid} {tx' : Tx} {refs' freed' : List String},
      freeLoop1 failAt sel g tx refs freed = .ok g' tx' refs' freed' →
      ∀ q : Nat × Nat, q ∉ sel → g' q.1 q.2 = g q.1 q.2 := by
  intro sel
  induction sel with
  | nil =>
    intro g tx refs freed g' tx' refs' freed' h q _
    rw [freeLoop1] at h
    injection h with h1 h2 h3 h4
    rw [← h1]
  | cons hd rest ih =>
    obtain ⟨row, col⟩ := hd
    intro g tx refs freed g' tx' refs' freed' h q hq
    have hq1 : q ≠ (row, col) := fun hc => hq (hc ▸ List.mem_cons_self _ _)
    have hq2 : q ∉ rest := fun hc => hq (List.mem_cons_of_mem _ hc)
    rw [freeLoop1] at h
    split at h
    · split at h
      · split at h
        · exact FreePh1.noConfusion h
        · rw [ih h q hq2]
          refine updateSeat_other _ _ _ _ ?_
          intro ⟨hr, hc⟩
          exact hq1 (by rw [Prod.ext_iff]; exact ⟨hr, hc⟩)
      · exact ih h q hq2
    · exact FreePh1.noConfusion h

theorem freeLoop1_sets_reserved {failAt : Option Nat} :
    ∀ {sel : List (Nat × Nat)} {g : Grid} {tx : Tx} {refs freed : List String}
      {g' : Grid} {tx' : Tx} {refs' freed' : List String},
      freeLoop1 failAt sel g tx refs freed = .ok g' tx' refs' freed' → sel.Nodup →
      ∀ q ∈ sel, is_booking_reference (g q.1 q.2).status = true →
        g' q.1 q.2 = ⟨"F", (g q.1 q.2).seatType, none⟩ := by
  intro sel
  induction sel with
  | nil =>
    intro g tx refs freed g' tx' refs' freed' _ _ q hq
    exact absurd hq (List.not_mem_nil q)
  | cons hd rest ih =>
    obtain ⟨row, col⟩ := hd
    intro g tx refs freed g' tx' refs' freed' h hnd q hq hqR
    have hhd : (row, col) ∉ rest := (List.nodup_cons.mp hnd).1
    have hrest : rest.Nodup := (List.nodup_cons.mp hnd).2
    rw [freeLoop1] at h
    split at h
    · split at h
      · next hR =>
        split at h
        · exact FreePh1.noConfusion h
        · rcases List.mem_cons.mp hq with rfl | hq'
          · simpa [updateSeat_self] using freeLoop1_not_mem h (row, col) hhd
          · have hqne : q ≠ (row, col) := fun hc => hhd (hc ▸ hq')
            have hgq : updateSeat g row col ⟨"F", (g row col).seatType, none⟩ q.1 q.2
                = g q.1 q.2 := by
              refine updateSeat_other _ _ _ _ ?_
              intro ⟨hr, hc⟩
              exact hqne (by rw [Prod.ext_iff]; exact ⟨hr, hc⟩)
            have hres := ih h hrest q hq' (by rw [hgq]; exact hqR)
            rw [hres, hgq]
      · next hR =>
        rcases List.mem_cons.mp hq with rfl | hq'
        · exact absurd hqR hR
        · exact ih h hrest q hq' hqR
    · exact FreePh1.noConfusion h

theorem freeLoop1_bookings_const {failAt : Option Nat} :
    ∀ {sel : List (Nat × Nat)} {g : Grid} {tx : Tx} {refs freed : List String}
      {g' : Grid} {tx' : Tx} {refs' freed' : List String},
      freeLoop1 failAt sel g tx refs freed = .ok g' tx' refs' freed' →
      tx'.pending.bookings = tx.pending.bookings := by
  intro sel
  induction sel with
  | nil =>
    intro g tx refs freed g' tx' refs' freed' h
    rw [freeLoop1] at h
    injection h with h1 h2 h3 h4
    rw [← h2]
  | cons hd rest ih =>
    obtain ⟨row, col⟩ := hd
    intro g tx refs freed g' tx' refs' freed' h
    rw [freeLoop1] at h
    split at h
    · split at h
      · split at h
        · exact FreePh1.noConfusion h
        · next tx1 hop =>
          obtain ⟨htx1, _⟩ := runOp_some hop
          rw [ih h, htx1]
          rfl
      · exact ih h
    · exact FreePh1.noConfusion h

theorem freeLoop1_count {failAt : Option Nat} {r : String}
    (href : is_booking_reference r = true) :
    ∀ {sel : List (Nat × Nat)} {g : Grid} {tx : Tx} {refs freed : List String}
      {g' : Grid} {tx' : Tx} {refs' freed' : List String},
      freeLoop1 failAt sel g tx refs freed = .ok g' tx' refs' freed' → sel.Nodup →
      (∀ q ∈ sel, (g q.1 q.2).status = r →
        matchCount tx.pending r (rowLetter q.1) (q.2 + 1) = 1) →
      countSeatsFor tx'.pending r
        + (sel.filter (fun q => (g q.1 q.2).status = r)).length
        = countSeatsFor tx.pending r := by
  intro sel
  induction sel with
  | nil =>
    intro g tx refs freed g' tx' refs' freed' h _ _
    rw [freeLoop1] at h
    injection h with h1 h2 h3 h4
    rw [← h2]
    simp
  | cons hd rest ih =>
    obtain ⟨row, col⟩ := hd
    intro g tx refs freed g' tx' refs' freed' h hnd hone
    have hhd : (row, col) ∉ rest := (List.nodup_cons.mp hnd).1
    have hrest : rest.Nodup := (List.nodup_cons.mp hnd).2
    rw [freeLoop1] at h
    split at h
    · next hrange =>
      split at h
      · next hR =>
        split at h
        · exact FreePh1.noConfusion h
        · next tx1 hop =>
          obtain ⟨htx1, _⟩ := runOp_some hop
          have hg1 : ∀ q ∈ rest,
              updateSeat g row col ⟨"F", (g row col).seatType, none⟩ q.1 q.2 = g q.1 q.2 := by
            intro q hq
            have hqne : q ≠ (row, col) := fun hc => hhd (hc ▸ hq)
            refine updateSeat_other _ _ _ _ ?_
            intro ⟨hr', hc'⟩
            exact hqne (by rw [Prod.ext_iff]; exact ⟨hr', hc'⟩)
          have hfc : (rest.filter (fun q =>
              (updateSeat g row col ⟨"F", (g row col).seatType, none⟩ q.1 q.2).status = r))
              = rest.filter (fun q => (g q.1 q.2).status = r) := by
            refine List.filter_congr ?_
            intro q hq
            rw [hg1 q hq]
          have hinr := freeLoop1_inrange h
          have hkeys : ∀ q ∈ rest, (g q.1 q.2).status = r →
              ¬(r = r ∧ rowLetter q.1 = rowLetter row ∧ q.2 + 1 = col + 1) := by
            intro q hq _
            rintro ⟨_, hl, hc⟩
            have hq7 : q.1 < num_rows := (hinr q hq).1
            have : q.1 = row := rowLetter_inj q.1 hq7 row hrange.1 hl
            exact hhd (by
              have hc2 : q.2 = col := by omega
              have : q = (row, col) := by rw [Prod.ext_iff]; exact ⟨this, hc2⟩
              rw [← this]
              exact hq)
          by_cases hsr : (g row col).status = r
          · have hm1 : matchCount tx.pending r (rowLetter row) (col + 1) = 1 :=
              hone (row, col) (List.mem_cons_self _ _) hsr
            have hone1 : ∀ q ∈ rest,
                (updateSeat g row col ⟨"F", (g row col).seatType, none⟩ q.1 q.2).status = r →
                matchCount tx1.pending r (rowLetter q.1) (q.2 + 1) = 1 := by
              intro q hq hq1r
              rw [hg1 q hq] at hq1r
              have hbase := hone q (List.mem_cons_of_mem _ hq) hq1r
              rw [htx1]
              show matchCount (deleteLink (g row col).status (rowLetter row) (col + 1)
                tx.pending) r (rowLetter q.1) (q.2 + 1) = 1
              rw [hsr, matchCount_deleteLink_other (hkeys q hq hq1r)]
              exact hbase
            have hih := ih h hrest hone1
            rw [hfc] at hih
            have hd2 := count_deleteLink_self tx.pending r (rowLetter row) (col + 1)
            have htx1p : countSeatsFor tx1.pending r
                + matchCount tx.pending r (rowLetter row) (col + 1)
                = countSeatsFor tx.pending r := by
              rw [htx1]
              show countSeatsFor (deleteLink (g row col).status (rowLetter row) (col + 1)
                tx.pending) r + _ = _
              rw [hsr]
              exact hd2
            rw [List.filter_cons_of_pos (by simpa using hsr), List.length_cons]
            omega
          · have hone1 : ∀ q ∈ rest,
                (updateSeat g row col ⟨"F", (g row col).seatType, none⟩ q.1 q.2).status = r →
                matchCount tx1.pending r (rowLetter q.1) (q.2 + 1) = 1 := by
              intro q hq hq1r
              rw [hg1 q hq] at hq1r
              have hbase := hone q (List.mem_cons_of_mem _ hq) hq1r
              rw [htx1]
              show matchCount (deleteLink (g row col).status (rowLetter row) (col + 1)
                tx.pending) r (rowLetter q.1) (q.2 + 1) = 1
              rw [matchCount_deleteLink_other (by
                rintro ⟨h1, _⟩
                exact hsr h1.symm)]
              exact hbase
            have hih := ih h hrest hone1
            rw [hfc] at hih
            have htx1p : countSeatsFor tx1.pending r = countSeatsFor tx.pending r := by
              rw [htx1]
              show countSeatsFor (deleteLink (g row col).status (rowLetter row) (col + 1)
                tx.pending) r = _
              exact count_deleteLink_other (fun hc => hsr hc)
            rw [List.filter_cons_of_neg (by simpa using hsr)]
            omega
      · next hR =>
        have hsr : ¬ (g row col).status = r := by
          intro hc
          rw [hc] at hR
          exact hR href
        have hih := ih h hrest (fun q hq => hone q (List.mem_cons_of_mem _ hq))
        rw [List.filter_cons_of_neg (by simpa using hsr)]
        omega
    · exact FreePh1.noConfusion h

theorem freeLoop1_refs_mem {failAt : Option Nat} {r : String} :
    ∀ {sel : List (Nat × Nat)} {g : Grid} {tx : Tx} {refs freed : List String}
      {g' : Grid} {tx' : Tx} {refs' freed' : List String},
      freeLoop1 failAt sel g tx refs freed = .ok g' tx' refs' freed' → sel.Nodup →
      (r ∈ refs' ↔ r ∈ refs ∨
        ∃ q ∈ sel, is_booking_reference (g q.1 q.2).status = true ∧ (g q.1 q.2).status = r) := by
  intro sel
  induction sel with
  | nil =>
    intro g tx refs freed g' tx' refs' freed' h _
    rw [freeLoop1] at h
    injection h with h1 h2 h3 h4
    rw [← h3]
    simp
  | cons hd rest ih =>
    obtain ⟨row, col⟩ := hd
    intro g tx refs freed g' tx' refs' freed' h hnd
    have hhd : (row, col) ∉ rest := (List.nodup_cons.mp hnd).1
    have hrest : rest.Nodup := (List.nodup_cons.mp hnd).2
    rw [freeLoop1] at h
    split at h
    · split at h
      · next hR =>
        split at h
        · exact FreePh1.noConfusion h
        · have hg1 : ∀ q ∈ rest,
              updateSeat g row col ⟨"F", (g row col).seatType, none⟩ q.1 q.2 = g q.1 q.2 := by
            intro q hq
            have hqne : q ≠ (row, col) := fun hc => hhd (hc ▸ hq)
            refine updateSeat_other _ _ _ _ ?_
            intro ⟨hr', hc'⟩
            exact hqne (by rw [Prod.ext_iff]; exact ⟨hr', hc'⟩)
          rw [ih h hrest, mem_addUnique]
          constructor
          · rintro (⟨hin | heq⟩ | ⟨q, hq, his, hst⟩)
            · exact Or.inl hin
            · exact Or.inr ⟨(row, col), List.mem_cons_self _ _, hR, heq.symm⟩
            · rw [hg1 q hq] at his hst
              exact Or.inr ⟨q, List.mem_cons_of_mem _ hq, his, hst⟩
          · rintro (hin | ⟨q, hq, his, hst⟩)
            · exact Or.inl (Or.inl hin)
            · rcases List.mem_cons.mp hq with rfl | hq'
              · exact Or.inl (Or.inr hst.symm)
              · refine Or.inr ⟨q, hq', ?_, ?_⟩
                · rw [hg1 q hq']; exact his
                · rw [hg1 q hq']; exact hst
      · next hR =>
        rw [ih h hrest]
        constructor
        · rintro (hin | ⟨q, hq, his, hst⟩)
          · exact Or.inl hin
          · exact Or.inr ⟨q, List.mem_cons_of_mem _ hq, his, hst⟩
        · rintro (hin | ⟨q, hq, his, hst⟩)
          · exact Or.inl hin
          · rcases List.mem_cons.mp hq with rfl | hq'
            · exact absurd his hR
            · exact Or.inr ⟨q, hq', his, hst⟩
    · exact FreePh1.noConfusion h

theorem freeLoop1_refs_nodup {failAt : Option Nat} :
    ∀ {sel : List (Nat × Nat)} {g : Grid} {tx : Tx} {refs freed : List String}
      {g' : Grid} {tx' : Tx} {refs' freed' : List String},
      freeLoop1 failAt sel g tx refs freed = .ok g' tx' refs' freed' → refs.Nodup →
      refs'.Nodup := by
  intro sel
  induction sel with
  | nil =>
    intro g tx refs freed g' tx' refs' freed' h hnd
    rw [freeLoop1] at h
    injection h with h1 h2 h3 h4
    rw [← h3]
    exact hnd
  | cons hd rest ih =>
    obtain ⟨row, col⟩ := hd
    intro g tx refs freed g' tx' refs' freed' h hnd
    rw [freeLoop1] at h
    split at h
    · split at h
      · split at h
        · exact FreePh1.noConfusion h
        · exact ih h (nodup_addUnique hnd _)
      · exact ih h hnd
    · exact FreePh1.noConfusion h

theorem countSeatsFor_congr {db1 db2 : DB} (h : db1.bookedSeats = db2.bookedSeats)
    (r : String) : countSeatsFor db1 r = countSeatsFor db2 r := by
  unfold countSeatsFor
  rw [h]

theorem freeLoop2_links_const {failAt : Option Nat} :
    ∀ {lst : List String} {tx : Tx} {regs : List String} {tx2 : Tx} {regs2 : List String},
      freeLoop2 failAt lst tx regs = .ok tx2 regs2 →
      tx2.pending.bookedSeats = tx.pending.bookedSeats := by
  intro lst
  induction lst with
  | nil =>
    intro tx regs tx2 regs2 h
    rw [freeLoop2] at h
    injection h with h1 h2
    rw [← h1]
  | cons ref rest ih =>
    intro tx regs tx2 regs2 h
    rw [freeLoop2] at h
    split at h
    · exact FreePh2.noConfusion h
    · next tx1 hop1 =>
      obtain ⟨htx1, _⟩ := runOp_some hop1
      split at h
      · split at h
        · exact FreePh2.noConfusion h
        · next tx2' hop2 =>
          obtain ⟨htx2, _⟩ := runOp_some hop2
          split at h
          · rw [ih h, htx2, htx1]
            rfl
          · exact FreePh2.noConfusion h
      · rw [ih h, htx1]
        rfl

theorem freeLoop2_bookings_sub {failAt : Option Nat} :
    ∀ {lst : List String} {tx : Tx} {regs : List String} {tx2 : Tx} {regs2 : List String},
      freeLoop2 failAt lst tx regs = .ok tx2 regs2 →
      ∀ b ∈ tx2.pending.bookings, b ∈ tx.pending.bookings := by
  intro lst
  induction lst with
  | nil =>
    intro tx regs tx2 regs2 h b hb
    rw [freeLoop2] at h
    injection h with h1 h2
    rw [h1]
    exact hb
  | cons ref rest ih =>
    intro tx regs tx2 regs2 h b hb
    rw [freeLoop2] at h
    split at h
    · exact FreePh2.noConfusion h
    · next tx1 hop1 =>
      obtain ⟨htx1, _⟩ := runOp_some hop1
      split at h
      · split at h
        · exact FreePh2.noConfusion h
        · next tx2' hop2 =>
          obtain ⟨htx2, _⟩ := runOp_some hop2
          split at h
          · have hmem := ih h b hb
            rw [htx2] at hmem
            have hmem2 : b ∈ (deleteBookingRow ref tx1.pending).bookings := hmem
            rw [htx1] at hmem2
            exact (List.mem_filter.mp hmem2).1
          · exact FreePh2.noConfusion h
      · have hmem := ih h b hb
        rw [htx1] at hmem
        exact hmem

theorem freeLoop2_regs_sub {failAt : Option Nat} :
    ∀ {lst : List String} {tx : Tx} {regs : List String} {tx2 : Tx} {regs2 : List String},
      freeLoop2 failAt lst tx regs = .ok tx2 regs2 →
      ∀ x ∈ regs2, x ∈ regs := by
  intro lst
  induction lst with
  | nil =>
    intro tx regs tx2 regs2 h x hx
    rw [freeLoop2] at h
    injection h with h1 h2
    rw [h2]
    exact hx
  | cons ref rest ih =>
    intro tx regs tx2 regs2 h x hx
    rw [freeLoop2] at h
    split at h
    · exact FreePh2.noConfusion h
    · split at h
      · split at h
        · exact FreePh2.noConfusion h
        · split at h
          · exact List.mem_of_mem_erase (ih h x hx)
          · exact FreePh2.noConfusion h
      · exact ih h x hx

theorem freeLoop2_untouched {failAt : Option Nat} {r : String} :
    ∀ {lst : List String} {tx : Tx} {regs : List String} {tx2 : Tx} {regs2 : List String},
      freeLoop2 failAt lst tx regs = .ok tx2 regs2 → r ∉ lst →
      ((∃ b ∈ tx2.pending.bookings, b.ref = r) ↔ (∃ b ∈ tx.pending.bookings, b.ref = r)) ∧
      (r ∈ regs2 ↔ r ∈ regs) := by
  intro lst
  induction lst with
  | nil =>
    intro tx regs tx2 regs2 h _
    rw [freeLoop2] at h
    injection h with h1 h2
    rw [← h1, ← h2]
    exact ⟨Iff.rfl, Iff.rfl⟩
  | cons ref rest ih =>
    intro tx regs tx2 regs2 h hmem
    have hne : r ≠ ref := fun hc => hmem (hc ▸ List.mem_cons_self _ _)
    have hrest : r ∉ rest := fun hc => hmem (List.mem_cons_of_mem _ hc)
    rw [freeLoop2] at h
    split at h
    · exact FreePh2.noConfusion h
    · next tx1 hop1 =>
      obtain ⟨htx1, _⟩ := runOp_some hop1
      split at h
      · split at h
        · exact FreePh2.noConfusion h
        · next tx2' hop2 =>
          obtain ⟨htx2, _⟩ := runOp_some hop2
          split at h
          · obtain ⟨hih1, hih2⟩ := ih h hrest
            constructor
            · rw [hih1, htx2]
              show (∃ b ∈ (deleteBookingRow ref tx1.pending).bookings, b.ref = r) ↔ _
              rw [header_deleteBookingRow_other hne, htx1]
              exact Iff.rfl
            · rw [hih2]
              exact List.mem_erase_of_ne hne
          · exact FreePh2.noConfusion h
      · obtain ⟨hih1, hih2⟩ := ih h hrest
        rw [htx1] at hih1
        exact ⟨hih1, hih2⟩

theorem freeLoop2_kept {failAt : Option Nat} {r : String} :
    ∀ {lst : List String} {tx : Tx} {regs : List String} {tx2 : Tx} {regs2 : List String},
      freeLoop2 failAt lst tx regs = .ok tx2 regs2 → lst.Nodup → r ∈ lst →
      countSeatsFor tx.pending r ≠ 0 →
      ((∃ b ∈ tx2.pending.bookings, b.ref = r) ↔ (∃ b ∈ tx.pending.bookings, b.ref = r)) ∧
      (r ∈ regs2 ↔ r ∈ regs) := by
  intro lst
  induction lst with
  | nil =>
    intro tx regs tx2 regs2 _ _ hmem
    exact absurd hmem (List.not_mem_nil r)
  | cons ref rest ih =>
    intro tx regs tx2 regs2 h hnd hmem hcnt
    have hhd : ref ∉ rest := (List.nodup_cons.mp hnd).1
    have hrest : rest.Nodup := (List.nodup_cons.mp hnd).2
    rw [freeLoop2] at h
    split at h
    · exact FreePh2.noConfusion h
    · next tx1 hop1 =>
      obtain ⟨htx1, _⟩ := runOp_some hop1
      rcases List.mem_cons.mp hmem with rfl | hmemr
      · -- head is r itself: its count is non-zero, so nothing is deleted
        have hc1 : countSeatsFor tx1.pending r = countSeatsFor tx.pending r := by
          rw [htx1]
          rfl
        split at h
        · next hzero =>
          rw [hc1] at hzero
          exact absurd hzero hcnt
        · obtain ⟨hih1, hih2⟩ := freeLoop2_untouched h hhd
          rw [htx1] at hih1
          exact ⟨hih1, hih2⟩
      · have hne : r ≠ ref := fun hc => hhd (hc ▸ hmemr)
        split at h
        · split at h
          · exact FreePh2.noConfusion h
          · next tx2' hop2 =>
            obtain ⟨htx2, _⟩ := runOp_some hop2
            split at h
            · have hcnt2 : countSeatsFor tx2'.pending r ≠ 0 := by
                rw [htx2]
                show countSeatsFor (deleteBookingRow ref tx1.pending) r ≠ 0
                rw [countSeatsFor_deleteBookingRow, htx1]
                exact hcnt
              obtain ⟨hih1, hih2⟩ := ih h hrest hmemr hcnt2
              constructor
              · rw [hih1, htx2]
                show (∃ b ∈ (deleteBookingRow ref tx1.pending).bookings, b.ref = r) ↔ _
                rw [header_deleteBookingRow_other hne, htx1]
                exact Iff.rfl
              · rw [hih2]
                exact List.mem_erase_of_ne hne
            · exact FreePh2.noConfusion h
        · have hcnt1 : countSeatsFor tx1.pending r ≠ 0 := by
            rw [htx1]
            exact hcnt
          obtain ⟨hih1, hih2⟩ := ih h hrest hmemr hcnt1
          rw [htx1] at hih1
          exact ⟨hih1, hih2⟩

theorem freeLoop2_deleted {failAt : Option Nat} {r : String} :
    ∀ {lst : List String} {tx : Tx} {regs : List String} {tx2 : Tx} {regs2 : List String},
      freeLoop2 failAt lst tx regs = .ok tx2 regs2 → lst.Nodup → regs.Nodup → r ∈ lst →
      countSeatsFor tx.pending r = 0 →
      (∀ b ∈ tx2.pending.bookings, b.ref ≠ r) ∧ r ∉ regs2 := by
  intro lst
  induction lst with
  | nil =>
    intro tx regs tx2 regs2 _ _ _ hmem
    exact absurd hmem (List.not_mem_nil r)
  | cons ref rest ih =>
    intro tx regs tx2 regs2 h hnd hrnd hmem hcnt
    have hhd : ref ∉ rest := (List.nodup_cons.mp hnd).1
    have hrest : rest.Nodup := (List.nodup_cons.mp hnd).2
    rw [freeLoop2] at h
    split at h
    · exact FreePh2.noConfusion h
    · next tx1 hop1 =>
      obtain ⟨htx1, _⟩ := runOp_some hop1
      rcases List.mem_cons.mp hmem with rfl | hmemr
      · -- head is r: count is zero, header deleted, r erased from the registry
        have hc1 : countSeatsFor tx1.pending r = 0 := by
          rw [htx1]
          exact hcnt
        split at h
        · split at h
          · exact FreePh2.noConfusion h
          · next tx2' hop2 =>
            obtain ⟨htx2, _⟩ := runOp_some hop2
            split at h
            · constructor
              · intro b hb
                have hb2 := freeLoop2_bookings_sub h b hb
                rw [htx2] at hb2
                have hb3 : b ∈ (deleteBookingRow r tx1.pending).bookings := hb2
                have := (List.mem_filter.mp hb3).2
                simpa using this
              · intro hc
                have := freeLoop2_regs_sub h r hc
                exact hrnd.not_mem_erase this
            · exact FreePh2.noConfusion h
        · next hzero =>
          exact absurd hc1 hzero
      · have hne : r ≠ ref := fun hc => hhd (hc ▸ hmemr)
        split at h
        · split at h
          · exact FreePh2.noConfusion h
          · next tx2' hop2 =>
            obtain ⟨htx2, _⟩ := runOp_some hop2
            split at h
            · refine ih h hrest (hrnd.erase ref) hmemr ?_
              rw [htx2]
              show countSeatsFor (deleteBookingRow ref tx1.pending) r = 0
              rw [countSeatsFor_deleteBookingRow, htx1]
              exact hcnt
            · exact FreePh2.noConfusion h
        · refine ih h hrest hrnd hmemr ?_
          rw [htx1]
          exact hcnt

/-- C7: partial vs. last-seat freeing.  For a successful `free_seats`
(no store failure) and a booking reference `r` with at least one
selected seat Reserved under `r` (and each such seat backed by exactly
one `booked_seats` row), writing `m` for the number of selected `r`
seats and `k` for `countSeatsFor r` before the call: the remaining link
count drops by exactly `m`; if a proper subset was freed (`m ≠ k`) the
booking header and its registry entry survive; if the last seat was
freed (`m = k`) the header is deleted in the same atomic unit and the
reference leaves the registry; and each freed seat becomes Free, with
`get_seat_status` reporting it Free. -/
theorem c7_partial_free_keeps_header_last_free_deletes (st : SysState) (r : String)
    (st' : SysState) (msg : String)
    (hsucc : free_seats st none = some (st', true, msg))
    (hnd : st.selected.Nodup)
    (hreg : st.bookingRefs.Nodup)
    (href : is_booking_reference r = true)
    (hone : ∀ q ∈ st.selected, (st.seats q.1 q.2).status = r →
      matchCount st.db r (rowLetter q.1) (q.2 + 1) = 1)
    (hm : 1 ≤ (st.selected.filter (fun q => (st.seats q.1 q.2).status = r)).length) :
    (countSeatsFor st'.db r
        + (st.selected.filter (fun q => (st.seats q.1 q.2).status = r)).length
      = countSeatsFor st.db r) ∧
    ((st.selected.filter (fun q => (st.seats q.1 q.2).status = r)).length
        ≠ countSeatsFor st.db r →
      ((∃ b ∈ st'.db.bookings, b.ref = r) ↔ (∃ b ∈ st.db.bookings, b.ref = r)) ∧
      (r ∈ st'.bookingRefs ↔ r ∈ st.bookingRefs)) ∧
    ((st.selected.filter (fun q => (st.seats q.1 q.2).status = r)).length
        = countSeatsFor st.db r →
      (∀ b ∈ st'.db.bookings, b.ref ≠ r) ∧ r ∉ st'.bookingRefs) ∧
    (∀ q ∈ st.selected, (st.seats q.1 q.2).status = r →
      st'.seats q.1 q.2 = ⟨"F", (st.seats q.1 q.2).seatType, none⟩ ∧
      get_seat_status st' q.1 q.2 =
        "Seat " ++ get_seat_name q.1 q.2 ++ " is Free ("
          ++ (st.seats q.1 q.2).seatType ++ " Class)") := by
  rcases free_completions hsucc with ⟨_, hfl, _⟩ | ⟨_, hfl, _⟩ |
    ⟨hselne, _, g, tx, refs, freed, tx2, regs, h1, h2, hcm, rfl⟩
  · exact absurd hfl (by simp)
  · exact absurd hfl (by simp)
  · have hcount1 : countSeatsFor tx.pending r
        + (st.selected.filter (fun q => (st.seats q.1 q.2).status = r)).length
        = countSeatsFor st.db r := freeLoop1_count href h1 hnd hone
    have hlinks := freeLoop2_links_const h2
    have hcount2 : countSeatsFor tx2.pending r = countSeatsFor tx.pending r :=
      countSeatsFor_congr hlinks r
    have hbk1 : tx.pending.bookings = st.db.bookings := freeLoop1_bookings_const h1
    have hrmem : r ∈ refs := by
      rw [freeLoop1_refs_mem h1 hnd]
      refine Or.inr ?_
      have hne : st.selected.filter (fun q => (st.seats q.1 q.2).status = r) ≠ [] := by
        intro hc
        rw [hc] at hm
        simp at hm
      obtain ⟨q, hqf⟩ := List.exists_mem_of_ne_nil _ hne
      obtain ⟨hq, hqs⟩ := List.mem_filter.mp hqf
      simp only [decide_eq_true_eq] at hqs
      exact ⟨q, hq, by rw [hqs]; exact href, hqs⟩
    have hrefsnd : refs.Nodup := freeLoop1_refs_nodup h1 List.nodup_nil
    refine ⟨?_, ?_, ?_, ?_⟩
    · show countSeatsFor tx2.pending r + _ = _
      rw [hcount2]
      exact hcount1
    · intro hne
      have hcnt : countSeatsFor tx.pending r ≠ 0 := by
        intro hc
        rw [hc] at hcount1
        simp at hcount1
        exact hne hcount1
      obtain ⟨hh, hr⟩ := freeLoop2_kept h2 hrefsnd hrmem hcnt
      constructor
      · show (∃ b ∈ tx2.pending.bookings, b.ref = r) ↔ _
        rw [hh]
        constructor
        · rintro ⟨b, hb, hbr⟩
          exact ⟨b, hbk1 ▸ hb, hbr⟩
        · rintro ⟨b, hb, hbr⟩
          exact ⟨b, hbk1 ▸ hb, hbr⟩
      · exact hr
    · intro heq
      have hcnt : countSeatsFor tx.pending r = 0 := by omega
      exact freeLoop2_deleted h2 hrefsnd hreg hrmem hcnt
    · intro q hq hqs
      have hin := freeLoop1_inrange h1 q hq
      have hseat : g q.1 q.2 = ⟨"F", (st.seats q.1 q.2).seatType, none⟩ :=
        freeLoop1_sets_reserved h1 hnd q hq (by rw [hqs]; exact href)
      refine ⟨hseat, ?_⟩
      have hF : is_booking_reference "F" = false := by decide
      have hfold : ("Seat " ++ get_seat_name q.1 q.2 ++ " is " ++ "Free" ++ " (" : String)
          = ("Seat " ++ get_seat_name q.1 q.2 ++ " is Free (" : String) := by
        rw [String.append_assoc, String.append_assoc]
        rfl
      simp [get_seat_status, hin, hseat, hF, statusText]
      rw [hfold]

/-- Booking {A1, A2} on a fresh system (reference `"AAAAAAAA"`), then
selecting A1 for freeing. -/
def c7St : SysState := stepToggle (stepBook selA1A2 pAlpha ["AAAAAAAA"]) 0 0

/-- C7: witness — freeing A1 while A2 of the same booking stays
Reserved: the link count drops from 2 to 1, the booking header survives,
and `get_seat_status` reports A1 Free. -/
theorem c7_partial_free_keeps_header_last_free_deletes_witness :
    (countSeatsFor (freeResState c7St).db "AAAAAAAA"
        + ((c7St.selected.filter
            (fun q => (c7St.seats q.1 q.2).status = "AAAAAAAA")).length)
      = countSeatsFor c7St.db "AAAAAAAA") ∧
    ((∃ b ∈ (freeResState c7St).db.bookings, b.ref = "AAAAAAAA") ↔
      (∃ b ∈ c7St.db.bookings, b.ref = "AAAAAAAA")) ∧
    get_seat_status (freeResState c7St) 0 0 =
      "Seat " ++ get_seat_name 0 0 ++ " is Free ("
        ++ (c7St.seats 0 0).seatType ++ " Class)" := by
  have h := c7_partial_free_keeps_header_last_free_deletes c7St "AAAAAAAA"
    (freeResState c7St) (freeResMsg c7St) rfl (by decide) (by decide) (by decide)
    (by decide) (by decide)
  exact ⟨h.1, (h.2.1 (by decide)).1, (h.2.2.2 (0, 0) (by decide) (by decide)).2⟩
